import Mathlib

/-!
# Verification of `csv2geojson.py`

A shallow embedding of the core of the CSV2GeoJSON repository
(`src/csv2geojson.py`) together with proofs about it.

Modelling conventions:

* Python floats are modelled by real numbers (`ℝ`); the numpy functions
  `deg2rad`, `sin`, `cos`, `sqrt`, `arctan2`, `power` are modelled by the
  corresponding real functions (`arctan2` follows numpy's quadrant
  convention).
* The shapely geometry library is an external collaborator of the source:
  a shapely shape is modelled abstractly as its observable interface, a
  containment test (`shapely .contains`, a boolean) and a nearest-point
  projection (the first component of `shapely.ops.nearest_points`).
* Python exceptions are modelled with `Except`; an exception aborts the
  run, so the partial state mutated before the raise is unobservable and
  is not tracked.
* Python `dict`s (insertion ordered, last write wins) are modelled as
  association lists without duplicate keys, written through `dset`, which
  replaces in place when the key is present and appends otherwise —
  exactly the observable behaviour of `{**d, k: v}` / `d[k] = v`.
-/

namespace Csv2GeoJson

/-- A planar point as used by shapely: `x` is the longitude and `y` the
latitude, both in degrees (`shapely.geometry.Point(long, lat)`). -/
structure Pt where
  x : ℝ
  y : ℝ

/-- `numpy.deg2rad`: degrees to radians. -/
noncomputable def deg2rad (d : ℝ) : ℝ := d * (Real.pi / 180)

/-- `numpy.arctan2 y x` with numpy's quadrant convention.  In the source it
is only applied to the two non-negative arguments `sqrt alpha` and
`sqrt (1 - alpha)`. -/
noncomputable def arctan2 (y x : ℝ) : ℝ :=
  if 0 < x then Real.arctan (y / x)
  else if x < 0 then
    (if 0 ≤ y then Real.arctan (y / x) + Real.pi else Real.arctan (y / x) - Real.pi)
  else
    (if 0 < y then Real.pi / 2 else if y < 0 then -(Real.pi / 2) else 0)

/-- The intermediate value `alpha` of `GeoBoundary.__haversine`, computed
from the radian coordinates. -/
noncomputable def havAlpha (lng1 lat1 lng2 lat2 : ℝ) : ℝ :=
  Real.sin ((lat2 - lat1) / 2) ^ 2 +
    Real.cos lat1 * Real.cos lat2 * Real.sin ((lng2 - lng1) / 2) ^ 2

/-- `GeoBoundary.__haversine(pt1, pt2)`: great-circle distance in
kilometres on a sphere of radius 6371 km, exactly as in the source. -/
noncomputable def haversine (pt1 pt2 : Pt) : ℝ :=
  let lng1 := deg2rad pt1.x
  let lat1 := deg2rad pt1.y
  let lng2 := deg2rad pt2.x
  let lat2 := deg2rad pt2.y
  let alpha := havAlpha lng1 lat1 lng2 lat2
  6371 * 2 * arctan2 (Real.sqrt alpha) (Real.sqrt (1 - alpha))

/-- The spherical cosine of the central angle between two radian
coordinate pairs. -/
noncomputable def sphCos (lng1 lat1 lng2 lat2 : ℝ) : ℝ :=
  Real.sin lat1 * Real.sin lat2 + Real.cos lat1 * Real.cos lat2 * Real.cos (lng2 - lng1)

/-- The unit vector on the sphere denoted by a point given in degrees.
Two `Pt`s are *coincident* when they denote the same unit vector. -/
noncomputable def sphereVec (p : Pt) : ℝ × ℝ × ℝ :=
  (Real.cos (deg2rad p.y) * Real.cos (deg2rad p.x),
   Real.cos (deg2rad p.y) * Real.sin (deg2rad p.x),
   Real.sin (deg2rad p.y))

/-- Two points are coincident when they denote the same point of the
sphere. -/
noncomputable def Coincident (p q : Pt) : Prop := sphereVec p = sphereVec q

lemma havAlpha_eq (lng1 lat1 lng2 lat2 : ℝ) :
    havAlpha lng1 lat1 lng2 lat2 = (1 - sphCos lng1 lat1 lng2 lat2) / 2 := by
  unfold havAlpha sphCos
  rw [show Real.sin ((lat2 - lat1) / 2) ^ 2 = 1 / 2 - Real.cos (2 * ((lat2 - lat1) / 2)) / 2 from
        Real.sin_sq_eq_half_sub _,
      show Real.sin ((lng2 - lng1) / 2) ^ 2 = 1 / 2 - Real.cos (2 * ((lng2 - lng1) / 2)) / 2 from
        Real.sin_sq_eq_half_sub _]
  rw [show 2 * ((lat2 - lat1) / 2) = lat2 - lat1 by ring,
      show 2 * ((lng2 - lng1) / 2) = lng2 - lng1 by ring]
  rw [Real.cos_sub lat2 lat1]
  ring

lemma sphCos_le_one (lng1 lat1 lng2 lat2 : ℝ) : sphCos lng1 lat1 lng2 lat2 ≤ 1 := by
  unfold sphCos
  nlinarith [sq_nonneg (Real.sin lat1 - Real.sin lat2),
    sq_nonneg (Real.cos lat1 - Real.cos lat2), sq_nonneg (Real.cos lat1 + Real.cos lat2),
    Real.cos_le_one (lng2 - lng1), Real.neg_one_le_cos (lng2 - lng1),
    Real.sin_sq_add_cos_sq lat1, Real.sin_sq_add_cos_sq lat2]

lemma neg_one_le_sphCos (lng1 lat1 lng2 lat2 : ℝ) : -1 ≤ sphCos lng1 lat1 lng2 lat2 := by
  unfold sphCos
  nlinarith [sq_nonneg (Real.sin lat1 + Real.sin lat2),
    sq_nonneg (Real.cos lat1 - Real.cos lat2), sq_nonneg (Real.cos lat1 + Real.cos lat2),
    Real.cos_le_one (lng2 - lng1), Real.neg_one_le_cos (lng2 - lng1),
    Real.sin_sq_add_cos_sq lat1, Real.sin_sq_add_cos_sq lat2]

lemma havAlpha_nonneg (lng1 lat1 lng2 lat2 : ℝ) : 0 ≤ havAlpha lng1 lat1 lng2 lat2 := by
  rw [havAlpha_eq]
  have h := sphCos_le_one lng1 lat1 lng2 lat2
  linarith

lemma havAlpha_le_one (lng1 lat1 lng2 lat2 : ℝ) : havAlpha lng1 lat1 lng2 lat2 ≤ 1 := by
  rw [havAlpha_eq]
  have h := neg_one_le_sphCos lng1 lat1 lng2 lat2
  linarith

lemma havAlpha_symm (lng1 lat1 lng2 lat2 : ℝ) :
    havAlpha lng1 lat1 lng2 lat2 = havAlpha lng2 lat2 lng1 lat1 := by
  unfold havAlpha
  rw [show (lat1 - lat2) / 2 = -((lat2 - lat1) / 2) by ring,
      show (lng1 - lng2) / 2 = -((lng2 - lng1) / 2) by ring,
      Real.sin_neg, Real.sin_neg]
  ring

/-- `arctan2` is non-negative on non-negative arguments, the argument
pattern used by `__haversine`. -/
lemma arctan2_nonneg {y x : ℝ} (hy : 0 ≤ y) (hx : 0 ≤ x) : 0 ≤ arctan2 y x := by
  unfold arctan2
  rcases eq_or_lt_of_le hx with rfl | hx1
  · rw [if_neg (lt_irrefl 0), if_neg (lt_irrefl 0)]
    rcases eq_or_lt_of_le hy with rfl | hy1
    · rw [if_neg (lt_irrefl 0), if_neg (lt_irrefl 0)]
    · rw [if_pos hy1]
      linarith [Real.pi_pos]
  · rw [if_pos hx1]
    have h0 := Real.arctan_strictMono.monotone (div_nonneg hy hx)
    rwa [Real.arctan_zero] at h0

/-- On non-negative arguments `arctan2 y x = 0` exactly when `y = 0`. -/
lemma arctan2_eq_zero_iff {y x : ℝ} (hy : 0 ≤ y) (hx : 0 ≤ x) :
    arctan2 y x = 0 ↔ y = 0 := by
  unfold arctan2
  rcases eq_or_lt_of_le hx with rfl | hx1
  · rw [if_neg (lt_irrefl 0), if_neg (lt_irrefl 0)]
    rcases eq_or_lt_of_le hy with rfl | hy1
    · rw [if_neg (lt_irrefl 0), if_neg (lt_irrefl 0)]
    · rw [if_pos hy1]
      exact iff_of_false (ne_of_gt (by linarith [Real.pi_pos])) (ne_of_gt hy1)
  · rw [if_pos hx1]
    rw [Real.arctan_eq_zero_iff, div_eq_zero_iff]
    constructor
    · rintro (h | h)
      · exact h
      · exact absurd h (ne_of_gt hx1)
    · exact fun h => Or.inl h

lemma haversine_symm (a b : Pt) : haversine a b = haversine b a := by
  simp only [haversine]
  rw [havAlpha_symm (deg2rad a.x) (deg2rad a.y) (deg2rad b.x) (deg2rad b.y)]

lemma haversine_nonneg (a b : Pt) : 0 ≤ haversine a b := by
  simp only [haversine]
  have h := arctan2_nonneg (Real.sqrt_nonneg
      (havAlpha (deg2rad a.x) (deg2rad a.y) (deg2rad b.x) (deg2rad b.y)))
    (Real.sqrt_nonneg
      (1 - havAlpha (deg2rad a.x) (deg2rad a.y) (deg2rad b.x) (deg2rad b.y)))
  linarith

lemma sphCos_eq_one_iff (lng1 lat1 lng2 lat2 : ℝ) :
    sphCos lng1 lat1 lng2 lat2 = 1 ↔
      (Real.cos lat1 * Real.cos lng1 = Real.cos lat2 * Real.cos lng2 ∧
       Real.cos lat1 * Real.sin lng1 = Real.cos lat2 * Real.sin lng2 ∧
       Real.sin lat1 = Real.sin lat2) := by
  have hsq : (Real.cos lat1 * Real.cos lng1 - Real.cos lat2 * Real.cos lng2) ^ 2 +
      (Real.cos lat1 * Real.sin lng1 - Real.cos lat2 * Real.sin lng2) ^ 2 +
      (Real.sin lat1 - Real.sin lat2) ^ 2 = 2 - 2 * sphCos lng1 lat1 lng2 lat2 := by
    unfold sphCos
    rw [Real.cos_sub]
    linear_combination Real.cos lat1 ^ 2 * Real.sin_sq_add_cos_sq lng1 +
      Real.cos lat2 ^ 2 * Real.sin_sq_add_cos_sq lng2 +
      Real.sin_sq_add_cos_sq lat1 + Real.sin_sq_add_cos_sq lat2
  constructor
  · intro h
    rw [h] at hsq
    have hA : (Real.cos lat1 * Real.cos lng1 - Real.cos lat2 * Real.cos lng2) ^ 2 = 0 := by
      nlinarith [sq_nonneg (Real.cos lat1 * Real.sin lng1 - Real.cos lat2 * Real.sin lng2),
        sq_nonneg (Real.sin lat1 - Real.sin lat2)]
    have hB : (Real.cos lat1 * Real.sin lng1 - Real.cos lat2 * Real.sin lng2) ^ 2 = 0 := by
      nlinarith [sq_nonneg (Real.cos lat1 * Real.cos lng1 - Real.cos lat2 * Real.cos lng2),
        sq_nonneg (Real.sin lat1 - Real.sin lat2)]
    have hC : (Real.sin lat1 - Real.sin lat2) ^ 2 = 0 := by
      nlinarith [sq_nonneg (Real.cos lat1 * Real.cos lng1 - Real.cos lat2 * Real.cos lng2),
        sq_nonneg (Real.cos lat1 * Real.sin lng1 - Real.cos lat2 * Real.sin lng2)]
    refine ⟨sub_eq_zero.mp (sq_eq_zero_iff.mp hA), sub_eq_zero.mp (sq_eq_zero_iff.mp hB),
      sub_eq_zero.mp (sq_eq_zero_iff.mp hC)⟩
  · rintro ⟨hA, hB, hC⟩
    have h2 : 2 - 2 * sphCos lng1 lat1 lng2 lat2 = 0 := by
      rw [← hsq, hA, hB, hC]
      ring
    linarith

/-- `haversine a b = 0` exactly when the two points denote the same point
of the sphere. -/
lemma haversine_eq_zero_iff (a b : Pt) : haversine a b = 0 ↔ Coincident a b := by
  simp only [haversine]
  set α := havAlpha (deg2rad a.x) (deg2rad a.y) (deg2rad b.x) (deg2rad b.y) with hα
  have h0 : (0:ℝ) ≤ α := havAlpha_nonneg _ _ _ _
  have he := havAlpha_eq (deg2rad a.x) (deg2rad a.y) (deg2rad b.x) (deg2rad b.y)
  rw [← hα] at he
  constructor
  · intro h
    have ht : arctan2 (Real.sqrt α) (Real.sqrt (1 - α)) = 0 := by
      have h6 : (6371:ℝ) * 2 ≠ 0 := by norm_num
      rcases mul_eq_zero.mp h with h' | h'
      · exact absurd h' h6
      · exact h'
    have hs : Real.sqrt α = 0 :=
      (arctan2_eq_zero_iff (Real.sqrt_nonneg _) (Real.sqrt_nonneg _)).mp ht
    have ha0 : α = 0 := le_antisymm (Real.sqrt_eq_zero'.mp hs) h0
    have hc1 : sphCos (deg2rad a.x) (deg2rad a.y) (deg2rad b.x) (deg2rad b.y) = 1 := by
      rw [ha0] at he
      linarith
    obtain ⟨hA, hB, hC⟩ := (sphCos_eq_one_iff _ _ _ _).mp hc1
    simp only [Coincident, sphereVec, Prod.mk.injEq]
    exact ⟨hA, hB, hC⟩
  · intro h
    obtain ⟨hA, hB, hC⟩ :
        Real.cos (deg2rad a.y) * Real.cos (deg2rad a.x) =
            Real.cos (deg2rad b.y) * Real.cos (deg2rad b.x) ∧
          Real.cos (deg2rad a.y) * Real.sin (deg2rad a.x) =
            Real.cos (deg2rad b.y) * Real.sin (deg2rad b.x) ∧
          Real.sin (deg2rad a.y) = Real.sin (deg2rad b.y) := by
      simpa [Coincident, sphereVec, Prod.mk.injEq] using h
    have hc1 := (sphCos_eq_one_iff (deg2rad a.x) (deg2rad a.y) (deg2rad b.x)
      (deg2rad b.y)).mpr ⟨hA, hB, hC⟩
    have ha0 : α = 0 := by
      rw [hc1] at he
      linarith
    rw [ha0, Real.sqrt_zero,
      (arctan2_eq_zero_iff le_rfl (Real.sqrt_nonneg (1 - 0))).mpr rfl]
    ring

lemma haversine_self (p : Pt) : haversine p p = 0 :=
  (haversine_eq_zero_iff p p).mpr rfl

/-- The observable interface of a shapely shape, the external geometry
library used by the source: `contains` is shapely's boundary-exclusive
point-in-polygon test (`i.contains(point)`), `nearest` is the point on
the shape returned as first component of
`shapely.ops.nearest_points(i, point)`. -/
structure Shape where
  contains : Pt → Bool
  nearest : Pt → Pt

/-- A GeoJSON feature as consumed by `GeoBoundary.find` and the join:
`shapeName?` is `feature["properties"]["shapeName"]` when that lookup
succeeds (`none` models the `KeyError` of a missing key), `shape` is
`shapely.geometry.shape(feature["geometry"])`. -/
structure Feature where
  shapeName? : Option String
  shape : Shape

/-- Fallback value for `List.getD`; never returned on the index ranges
that actually occur (proved where used). -/
def junkFeature : Feature :=
  { shapeName? := none, shape := { contains := fun _ => false, nearest := fun p => p } }

/-- `GeoBoundary`: `places` is `self.places = self.data["features"]`;
`self.shapes` is recovered as `places.map Feature.shape`, matching
`self.shapes = [self.__to_shape(feature) for feature in self.places]`. -/
structure GeoBoundary where
  places : List Feature

/-- Python's `min` on a list of floats (the empty case raises in Python;
its value here is irrelevant because the caller is proved to avoid it). -/
noncomputable def pymin : List ℝ → ℝ
  | [] => 0
  | x :: xs => xs.foldl min x

/-- Python's `list.index`: index of the first element equal to `v`
(`l.length` when absent, where Python would raise). -/
noncomputable def pyindex (v : ℝ) : List ℝ → ℕ
  | [] => 0
  | x :: xs => if x = v then 0 else pyindex v xs + 1

/-- `GeoBoundary.find(point)` from the source: the features containing the
point, else the single feature whose shape's nearest point has minimal
haversine distance to the query point (`distances.index(min(distances))`).
The guard on an empty feature list models Python's `min([])` raise. -/
noncomputable def GeoBoundary.find (b : GeoBoundary) (p : Pt) : List Feature :=
  let search := b.places.filter (fun f => f.shape.contains p)
  if search.length = 0 then
    let distances := b.places.map (fun f => haversine (f.shape.nearest p) p)
    if distances.length = 0 then []
    else [b.places.getD (pyindex (pymin distances) distances) junkFeature]
  else search

/-- `resolve` of the spec: the first element of `find`
(`boundary.find(point)[0]`, `none` modelling the `IndexError`). -/
noncomputable def GeoBoundary.resolve (b : GeoBoundary) (p : Pt) : Option Feature :=
  (b.find p).head?

/-- The haversine distance from `p` to the nearest point on the boundary
shape at index `k`, as computed by the fallback of `find`. -/
noncomputable def edgeDist (b : GeoBoundary) (p : Pt) (k : ℕ) : ℝ :=
  haversine (((b.places.getD k junkFeature).shape.nearest) p) p

lemma foldl_min_le_self (x : ℝ) (xs : List ℝ) : xs.foldl min x ≤ x := by
  induction xs generalizing x with
  | nil => exact le_rfl
  | cons y ys ih => exact (ih (min x y)).trans (min_le_left x y)

lemma foldl_min_le_mem {y : ℝ} {xs : List ℝ} (h : y ∈ xs) (x : ℝ) : xs.foldl min x ≤ y := by
  induction xs generalizing x with
  | nil => cases h
  | cons z zs ih =>
    rcases List.mem_cons.mp h with rfl | h'
    · exact (foldl_min_le_self (min x y) zs).trans (min_le_right x y)
    · exact ih h' (min x z)

lemma foldl_min_mem (x : ℝ) (xs : List ℝ) : xs.foldl min x = x ∨ xs.foldl min x ∈ xs := by
  induction xs generalizing x with
  | nil => exact Or.inl rfl
  | cons z zs ih =>
    rcases ih (min x z) with h | h
    · rcases min_cases x z with ⟨he, _⟩ | ⟨he, _⟩
      · exact Or.inl (by rw [List.foldl_cons, h, he])
      · exact Or.inr (by rw [List.foldl_cons, h, he]; exact List.mem_cons_self z zs)
    · exact Or.inr (List.mem_cons_of_mem z h)

lemma pymin_le {l : List ℝ} {y : ℝ} (h : y ∈ l) : pymin l ≤ y := by
  cases l with
  | nil => cases h
  | cons x xs =>
    rcases List.mem_cons.mp h with rfl | h'
    · exact foldl_min_le_self y xs
    · exact foldl_min_le_mem h' x

lemma pymin_mem {l : List ℝ} (h : l ≠ []) : pymin l ∈ l := by
  cases l with
  | nil => exact absurd rfl h
  | cons x xs =>
    rcases foldl_min_mem x xs with h' | h'
    · rw [pymin, h']
      exact List.mem_cons_self x xs
    · exact List.mem_cons_of_mem x h'

lemma pyindex_lt_length {v : ℝ} {l : List ℝ} (h : v ∈ l) : pyindex v l < l.length := by
  induction l with
  | nil => cases h
  | cons x xs ih =>
    rw [pyindex]
    by_cases hx : x = v
    · rw [if_pos hx]
      exact Nat.succ_pos _
    · rw [if_neg hx]
      have : v ∈ xs := by
        rcases List.mem_cons.mp h with rfl | h'
        · exact absurd rfl hx
        · exact h'
      exact Nat.succ_lt_succ (ih this)

lemma pyindex_getD {v : ℝ} {l : List ℝ} (h : v ∈ l) (d : ℝ) :
    l.getD (pyindex v l) d = v := by
  induction l with
  | nil => cases h
  | cons x xs ih =>
    rw [pyindex]
    by_cases hx : x = v
    · rw [if_pos hx]
      exact hx
    · rw [if_neg hx]
      have : v ∈ xs := by
        rcases List.mem_cons.mp h with rfl | h'
        · exact absurd rfl hx
        · exact h'
      exact ih this

lemma pyindex_first {v : ℝ} (l : List ℝ) {j : ℕ} (hj : j < pyindex v l) (d : ℝ) :
    l.getD j d ≠ v := by
  induction l generalizing j with
  | nil => cases hj
  | cons x xs ih =>
    rw [pyindex] at hj
    by_cases hx : x = v
    · rw [if_pos hx] at hj
      cases hj
    · rw [if_neg hx] at hj
      cases j with
      | zero => exact hx
      | succ j' => exact ih (Nat.lt_of_succ_lt_succ hj)

lemma getD_map_of_lt {α β : Type} (f : α → β) (l : List α) (k : ℕ) (hk : k < l.length)
    (d : β) (d' : α) : (l.map f).getD k d = f (l.getD k d') := by
  induction l generalizing k with
  | nil => simp at hk
  | cons x xs ih =>
    cases k with
    | zero => rfl
    | succ k' =>
      simp only [List.map_cons, List.getD_cons_succ]
      exact ih k' (Nat.lt_of_succ_lt_succ hk)

lemma getD_mem_of_lt {α : Type} (l : List α) (k : ℕ) (hk : k < l.length) (d : α) :
    l.getD k d ∈ l := by
  induction l generalizing k with
  | nil => simp at hk
  | cons x xs ih =>
    cases k with
    | zero => exact List.mem_cons_self x xs
    | succ k' =>
      simp only [List.getD_cons_succ]
      exact List.mem_cons_of_mem x (ih k' (Nat.lt_of_succ_lt_succ hk))

lemma find_of_contains (b : GeoBoundary) (p : Pt)
    (h : b.places.filter (fun f => f.shape.contains p) ≠ []) :
    b.find p = b.places.filter (fun f => f.shape.contains p) := by
  simp only [GeoBoundary.find]
  rw [if_neg (by simpa [List.length_eq_zero] using h)]

lemma find_fallback (b : GeoBoundary) (p : Pt)
    (hout : ∀ f ∈ b.places, f.shape.contains p = false) (hne : b.places ≠ []) :
    b.find p =
      [b.places.getD
        (pyindex (pymin (b.places.map (fun f => haversine (f.shape.nearest p) p)))
          (b.places.map (fun f => haversine (f.shape.nearest p) p))) junkFeature] := by
  have hfil : b.places.filter (fun f => f.shape.contains p) = [] :=
    List.filter_eq_nil_iff.mpr (fun f hf => by rw [hout f hf]; exact Bool.false_ne_true)
  simp only [GeoBoundary.find]
  rw [if_pos (by rw [hfil]; rfl),
    if_neg (by simpa [List.length_eq_zero, List.map_eq_nil_iff] using hne)]

/-- C1: on a point outside every polygon, `resolve` (the head of `find`)
returns the feature whose boundary's nearest point has minimal haversine
distance to the point, the first such feature on a tie. -/
theorem claim_C1_nearest_fallback (b : GeoBoundary) (p : Pt)
    (hout : ∀ f ∈ b.places, f.shape.contains p = false) (hne : b.places ≠ []) :
    ∃ i, i < b.places.length ∧
      b.find p = [b.places.getD i junkFeature] ∧
      b.resolve p = some (b.places.getD i junkFeature) ∧
      (∀ j, j < b.places.length → edgeDist b p i ≤ edgeDist b p j) ∧
      (∀ j, j < i → edgeDist b p i < edgeDist b p j) := by
  have hD : (b.places.map (fun f => haversine (f.shape.nearest p) p)) ≠ [] := by
    simpa [List.map_eq_nil_iff] using hne
  set D := b.places.map (fun f => haversine (f.shape.nearest p) p) with hDdef
  have hlen : D.length = b.places.length := List.length_map _ _
  have hmin : pymin D ∈ D := pymin_mem hD
  set i := pyindex (pymin D) D with hidef
  have hi : i < D.length := pyindex_lt_length hmin
  have hedge : ∀ k, k < b.places.length → edgeDist b p k = D.getD k 0 := by
    intro k hk
    rw [hDdef, getD_map_of_lt _ _ k hk 0 junkFeature]
    rfl
  have hieq : D.getD i 0 = pymin D := pyindex_getD hmin 0
  refine ⟨i, hlen ▸ hi, find_fallback b p hout hne, ?_, ?_, ?_⟩
  · rw [GeoBoundary.resolve, find_fallback b p hout hne]
    rfl
  · intro j hj
    rw [hedge i (hlen ▸ hi), hedge j hj, hieq]
    exact pymin_le (getD_mem_of_lt D j (hlen ▸ hj) 0)
  · intro j hj
    have hjlt : j < b.places.length := lt_trans hj (hlen ▸ hi)
    rw [hedge i (hlen ▸ hi), hedge j hjlt, hieq]
    have hne' : D.getD j 0 ≠ pymin D := pyindex_first D hj 0
    exact lt_of_le_of_ne (pymin_le (getD_mem_of_lt D j (hlen ▸ hjlt) 0)) (Ne.symm hne')

/-- C2: the containment query returns every containing feature in original
order (`find` is the ordered filter) and `resolve` takes the first; in
particular a point contained in exactly one feature resolves to it. -/
theorem claim_C2_containment_first_match (b : GeoBoundary) (p : Pt) (f0 : Feature)
    (hmem : f0 ∈ b.places) (hc : f0.shape.contains p = true) :
    b.find p = b.places.filter (fun f => f.shape.contains p) ∧
    b.resolve p = (b.places.filter (fun f => f.shape.contains p)).head? ∧
    ((∀ g ∈ b.places, g.shape.contains p = true → g = f0) → b.resolve p = some f0) := by
  have hfmem : f0 ∈ b.places.filter (fun f => f.shape.contains p) :=
    List.mem_filter.mpr ⟨hmem, hc⟩
  have hfil : b.places.filter (fun f => f.shape.contains p) ≠ [] :=
    List.ne_nil_of_mem hfmem
  have hfind := find_of_contains b p hfil
  refine ⟨hfind, by rw [GeoBoundary.resolve, hfind], ?_⟩
  intro huniq
  rw [GeoBoundary.resolve, hfind]
  cases hcase : b.places.filter (fun f => f.shape.contains p) with
  | nil => exact absurd hcase hfil
  | cons a l =>
    have ha : a ∈ b.places.filter (fun f => f.shape.contains p) := by
      rw [hcase]
      exact List.mem_cons_self a l
    obtain ⟨hap, hac⟩ := List.mem_filter.mp ha
    simp only [List.head?_cons, Option.some.injEq]
    exact huniq a hap (by simpa using hac)

/-- C9: `find` never returns an empty list when the feature collection is
non-empty (the empty-minimum branch is unreachable), and a point on a
polygon's boundary — excluded by shapely's boundary-exclusive `contains`
and projected to itself by `nearest_points` — goes through the nearest
fallback with a computed distance of zero for that polygon. -/
theorem claim_C9_nonempty_and_boundary (b : GeoBoundary) (p : Pt) (hne : b.places ≠ []) :
    b.find p ≠ [] ∧
      ∀ f, f ∈ b.places → (∀ g ∈ b.places, g.shape.contains p = false) →
        f.shape.nearest p = p →
          b.places.filter (fun g => g.shape.contains p) = [] ∧
          haversine (f.shape.nearest p) p = 0 := by
  constructor
  · by_cases hfil : b.places.filter (fun f => f.shape.contains p) = []
    · have hout : ∀ f ∈ b.places, f.shape.contains p = false := by
        intro f hf
        have := List.filter_eq_nil_iff.mp hfil f hf
        simpa using this
      rw [find_fallback b p hout hne]
      exact List.cons_ne_nil _ _
    · rw [find_of_contains b p hfil]
      exact hfil
  · intro f _ hout hself
    refine ⟨List.filter_eq_nil_iff.mpr (fun g hg => by rw [hout g hg]; exact Bool.false_ne_true), ?_⟩
    rw [hself]
    exact haversine_self p

/-- C4: the haversine distance function is symmetric, non-negative, and
zero exactly on coincident points (points denoting the same point of the
sphere). -/
theorem claim_C4_haversine_metric (a b : Pt) :
    haversine a b = haversine b a ∧ 0 ≤ haversine a b ∧
      (haversine a b = 0 ↔ Coincident a b) :=
  ⟨haversine_symm a b, haversine_nonneg a b, haversine_eq_zero_iff a b⟩

/-- A shape containing no point; its nearest-point projection is the
identity. -/
def shapeNone : Shape := { contains := fun _ => false, nearest := fun p => p }

/-- A shape containing every point. -/
def shapeAll : Shape := { contains := fun _ => true, nearest := fun p => p }

/-- Concrete feature named `"A"` whose shape contains no point. -/
def featA : Feature := { shapeName? := some "A", shape := shapeNone }

/-- Concrete feature named `"B"` whose shape contains every point. -/
def featB : Feature := { shapeName? := some "B", shape := shapeAll }

/-- A one-feature boundary set around `featA`. -/
def wb1 : GeoBoundary := { places := [featA] }

/-- A one-feature boundary set around `featB`. -/
def wb2 : GeoBoundary := { places := [featB] }

/-- The query point `(10, 10)` of the spec scenario. -/
noncomputable def wp1 : Pt := { x := 10, y := 10 }

theorem claim_C1_nearest_fallback_witness :
    (∀ f ∈ wb1.places, f.shape.contains wp1 = false) ∧ wb1.places ≠ [] ∧
      (∃ i, i < wb1.places.length ∧
        wb1.find wp1 = [wb1.places.getD i junkFeature] ∧
        wb1.resolve wp1 = some (wb1.places.getD i junkFeature) ∧
        (∀ j, j < wb1.places.length → edgeDist wb1 wp1 i ≤ edgeDist wb1 wp1 j) ∧
        (∀ j, j < i → edgeDist wb1 wp1 i < edgeDist wb1 wp1 j)) := by
  have h1 : ∀ f ∈ wb1.places, f.shape.contains wp1 = false := by
    intro f hf
    have hfa : f = featA := by simpa [wb1] using hf
    rw [hfa]
    rfl
  have h2 : wb1.places ≠ [] := by simp [wb1]
  exact ⟨h1, h2, claim_C1_nearest_fallback wb1 wp1 h1 h2⟩

theorem claim_C2_containment_first_match_witness :
    featB ∈ wb2.places ∧ featB.shape.contains wp1 = true ∧
      (wb2.find wp1 = wb2.places.filter (fun f => f.shape.contains wp1) ∧
       wb2.resolve wp1 = (wb2.places.filter (fun f => f.shape.contains wp1)).head? ∧
       ((∀ g ∈ wb2.places, g.shape.contains wp1 = true → g = featB) →
         wb2.resolve wp1 = some featB)) := by
  have hmem : featB ∈ wb2.places := by simp [wb2]
  have hc : featB.shape.contains wp1 = true := rfl
  exact ⟨hmem, hc, claim_C2_containment_first_match wb2 wp1 featB hmem hc⟩

theorem claim_C9_nonempty_and_boundary_witness :
    wb1.places ≠ [] ∧
      (wb1.find wp1 ≠ [] ∧
        ∀ f, f ∈ wb1.places → (∀ g ∈ wb1.places, g.shape.contains wp1 = false) →
          f.shape.nearest wp1 = wp1 →
            wb1.places.filter (fun g => g.shape.contains wp1) = [] ∧
            haversine (f.shape.nearest wp1) wp1 = 0) := by
  have h2 : wb1.places ≠ [] := by simp [wb1]
  exact ⟨h2, claim_C9_nonempty_and_boundary wb1 wp1 h2⟩

/-! ## Loading: `json.loads` output and `GeoBoundary.__init__` -/

/-- A JSON value as produced by `json.loads` (numbers as rationals). -/
inductive Json where
  | null : Json
  | bool : Bool → Json
  | num : ℚ → Json
  | str : String → Json
  | arr : List Json → Json
  | obj : List (String × Json) → Json

/-- `d[k]` on a JSON value: `none` models Python's `KeyError` on a dict
without the key, or the `TypeError` of indexing a non-dict. -/
def Json.lookup : Json → String → Option Json
  | Json.obj kvs, k => (kvs.find? (fun kv => kv.1 == k)).map (fun kv => kv.2)
  | _, _ => none

/-- The Python exceptions the embedded code can raise. -/
inductive PyErr where
  | keyError : PyErr
  | valueError : PyErr
  | indexError : PyErr
  | typeError : PyErr
  | geometryError : PyErr

/-- The GeoJSON geometry types `shapely.geometry.shape` accepts (with a
`coordinates` member); note that Point and LineString are among them. -/
def shapelyGeomTypes : List String :=
  ["Point", "MultiPoint", "LineString", "MultiLineString", "Polygon", "MultiPolygon"]

/-- A parsed shapely geometry: its GeoJSON type tag and raw coordinates. -/
structure PyGeom where
  gtype : String
  coords : Json

/-- Modelled behaviour of `shapely.geometry.shape(g)` (external library):
it reads `g["type"]`, accepts any of the standard GeoJSON geometry types,
reads `g["coordinates"]`, and raises on anything else.  It performs no
polygon-only restriction. -/
def shapelyShape (g : Json) : Except PyErr PyGeom :=
  match g.lookup "type" with
  | some (Json.str t) =>
    if t ∈ shapelyGeomTypes then
      match g.lookup "coordinates" with
      | some c => Except.ok { gtype := t, coords := c }
      | none => Except.error PyErr.geometryError
    else Except.error PyErr.geometryError
  | _ => Except.error PyErr.geometryError

/-- `GeoBoundary.__init__` after `json.loads`: reads `data["features"]`
and eagerly converts every feature's `feature["geometry"]` through
`shapely.geometry.shape`.  Nothing else is validated at load time. -/
def loadBoundary (data : Json) : Except PyErr (List (Json × PyGeom)) :=
  match data.lookup "features" with
  | none => Except.error PyErr.keyError
  | some (Json.arr fs) =>
    fs.mapM (fun f =>
      match f.lookup "geometry" with
      | none => Except.error PyErr.keyError
      | some g => (shapelyShape g).map (fun s => (f, s)))
  | some _ => Except.error PyErr.typeError

lemma mapM_ok_of_forall {ε α β : Type} (f : α → Except ε β) :
    ∀ l : List α, (∀ a ∈ l, ∃ b, f a = Except.ok b) → ∃ out, l.mapM f = Except.ok out
  | [], _ => ⟨[], rfl⟩
  | x :: xs, h => by
    obtain ⟨b, hb⟩ := h x (List.mem_cons_self x xs)
    obtain ⟨out, hout⟩ := mapM_ok_of_forall f xs (fun a ha => h a (List.mem_cons_of_mem x ha))
    exact ⟨b :: out, by rw [List.mapM_cons, hb, hout]; rfl⟩

lemma mapM_error_of_exists {ε α β : Type} (f : α → Except ε β) :
    ∀ l : List α, (∃ a ∈ l, ∀ b, f a ≠ Except.ok b) → ∃ e, l.mapM f = Except.error e := by
  intro l
  induction l with
  | nil => rintro ⟨a, ha, _⟩; cases ha
  | cons x xs ih =>
    rintro ⟨a, ha, hne⟩
    cases hfx : f x with
    | error e => exact ⟨e, by rw [List.mapM_cons, hfx]; rfl⟩
    | ok b =>
      rcases List.mem_cons.mp ha with rfl | ha'
      · exact absurd hfx (hne b)
      · obtain ⟨e, he⟩ := ih ⟨a, ha', hne⟩
        exact ⟨e, by rw [List.mapM_cons, hfx, he]; rfl⟩

/-- The square-polygon geometry of the spec scenario. -/
def polyCoordsA : Json :=
  Json.arr [Json.arr [
    Json.arr [Json.num 0, Json.num 0], Json.arr [Json.num 0, Json.num 2],
    Json.arr [Json.num 2, Json.num 2], Json.arr [Json.num 2, Json.num 0],
    Json.arr [Json.num 0, Json.num 0]]]

/-- A valid Polygon geometry object. -/
def geomPolyA : Json :=
  Json.obj [("type", Json.str "Polygon"), ("coordinates", polyCoordsA)]

/-- A feature with a valid Polygon geometry but no `shapeName` in its
properties. -/
def featNoName : Json :=
  Json.obj [("type", Json.str "Feature"), ("properties", Json.obj []),
    ("geometry", geomPolyA)]

/-- A feature collection whose single feature is missing
`properties.shapeName`. -/
def fcNoShapeName : Json :=
  Json.obj [("type", Json.str "FeatureCollection"),
    ("features", Json.arr [featNoName])]

/-- A Point geometry object (not a Polygon/MultiPolygon). -/
def geomPointA : Json :=
  Json.obj [("type", Json.str "Point"),
    ("coordinates", Json.arr [Json.num 1, Json.num 1])]

/-- A feature with a Point geometry and a `shapeName`. -/
def featPointA : Json :=
  Json.obj [("type", Json.str "Feature"),
    ("properties", Json.obj [("shapeName", Json.str "P")]),
    ("geometry", geomPointA)]

/-- A feature collection whose single feature has a Point geometry. -/
def fcPoint : Json :=
  Json.obj [("type", Json.str "FeatureCollection"),
    ("features", Json.arr [featPointA])]

/-- C3 counterexample: a feature collection whose feature is missing
`properties.shapeName` loads successfully (no failure at load time), and
one whose geometry type is Point — not Polygon/MultiPolygon — also loads
successfully; so loading does not fail on either condition, contrary to
the claim. -/
theorem claim_C3_counterexample :
    (featNoName.lookup "properties").bind (fun ps => ps.lookup "shapeName") = none ∧
    loadBoundary fcNoShapeName =
      Except.ok [(featNoName, PyGeom.mk "Polygon" polyCoordsA)] ∧
    loadBoundary fcPoint =
      Except.ok [(featPointA, PyGeom.mk "Point" (Json.arr [Json.num 1, Json.num 1]))] :=
  ⟨rfl, rfl, rfl⟩

/-- C3 amended: loading fails at load time — before any record is
processed — when a feature is missing its `geometry` member and also when
a geometry is present but the geometry library cannot parse it; it
succeeds whenever every feature has a parseable geometry.  Missing
`properties.shapeName` is not checked at load time, and any geometry type
shapely accepts (including Point) loads. -/
theorem claim_C3_amended_load (data : Json) (fs : List Json)
    (hfs : data.lookup "features" = some (Json.arr fs)) :
    ((∀ f ∈ fs, ∃ g s, f.lookup "geometry" = some g ∧ shapelyShape g = Except.ok s) →
      ∃ out, loadBoundary data = Except.ok out) ∧
    ((∃ f ∈ fs, f.lookup "geometry" = none) →
      ∃ e, loadBoundary data = Except.error e) ∧
    ((∃ f ∈ fs, ∃ g e0, f.lookup "geometry" = some g ∧ shapelyShape g = Except.error e0) →
      ∃ e, loadBoundary data = Except.error e) := by
  refine ⟨?_, ?_, ?_⟩
  · intro h
    rw [loadBoundary, hfs]
    exact mapM_ok_of_forall _ fs (fun a ha => by
      obtain ⟨g, sh, hg, hsh⟩ := h a ha
      exact ⟨(a, sh), by simp [hg, hsh, Except.map]⟩)
  · rintro ⟨f, hf, hgeo⟩
    rw [loadBoundary, hfs]
    exact mapM_error_of_exists _ fs ⟨f, hf, fun b => by simp [hgeo]⟩
  · rintro ⟨f, hf, g, e0, hg, hsh⟩
    rw [loadBoundary, hfs]
    exact mapM_error_of_exists _ fs ⟨f, hf, fun b => by simp [hg, hsh, Except.map]⟩

/-- A geometry object whose type tag the geometry library does not
recognise: present but unparseable. -/
def geomBad : Json := Json.obj [("type", Json.str "Banana")]

/-- A feature carrying the unparseable geometry. -/
def featBadGeom : Json :=
  Json.obj [("type", Json.str "Feature"),
    ("properties", Json.obj [("shapeName", Json.str "Q")]),
    ("geometry", geomBad)]

/-- A feature collection whose single feature has an unparseable
geometry. -/
def fcBadGeom : Json :=
  Json.obj [("type", Json.str "FeatureCollection"),
    ("features", Json.arr [featBadGeom])]

theorem claim_C3_amended_load_witness :
    (fcPoint.lookup "features" = some (Json.arr [featPointA]) ∧
      ((∀ f ∈ [featPointA], ∃ g s, f.lookup "geometry" = some g ∧
          shapelyShape g = Except.ok s) →
        ∃ out, loadBoundary fcPoint = Except.ok out) ∧
      ((∃ f ∈ [featPointA], f.lookup "geometry" = none) →
        ∃ e, loadBoundary fcPoint = Except.error e) ∧
      ((∃ f ∈ [featPointA], ∃ g e0, f.lookup "geometry" = some g ∧
          shapelyShape g = Except.error e0) →
        ∃ e, loadBoundary fcPoint = Except.error e)) ∧
    (fcBadGeom.lookup "features" = some (Json.arr [featBadGeom]) ∧
      (∃ f ∈ [featBadGeom], ∃ g e0, f.lookup "geometry" = some g ∧
        shapelyShape g = Except.error e0) ∧
      (∃ e, loadBoundary fcBadGeom = Except.error e)) := by
  have hfs1 : fcPoint.lookup "features" = some (Json.arr [featPointA]) := rfl
  have hfs2 : fcBadGeom.lookup "features" = some (Json.arr [featBadGeom]) := rfl
  have hbad : ∃ f ∈ [featBadGeom], ∃ g e0, f.lookup "geometry" = some g ∧
      shapelyShape g = Except.error e0 :=
    ⟨featBadGeom, List.mem_singleton.mpr rfl, geomBad, PyErr.geometryError, rfl, rfl⟩
  exact ⟨⟨hfs1, claim_C3_amended_load fcPoint [featPointA] hfs1⟩,
    ⟨hfs2, hbad, (claim_C3_amended_load fcBadGeom [featBadGeom] hfs2).2.2 hbad⟩⟩

/-! ## Records: `DictCSV` and the join of `CSV2GeoJSON.__init__` -/

/-- A record: a Python dict from field name to string value (insertion
ordered). -/
abbrev Row : Type := List (String × String)

/-- `d[k] = v` and `{**d, k: v}` on an insertion-ordered dict: replace in
place when the key is present, append otherwise. -/
def dset {β : Type} : List (String × β) → String → β → List (String × β)
  | [], k, v => [(k, v)]
  | kv :: d, k, v => if kv.1 = k then (k, v) :: d else kv :: dset d k v

/-- `d.get(k)` / `d[k]` on a dict (`none` models `KeyError`). -/
def dget? {β : Type} : List (String × β) → String → Option β
  | [], _ => none
  | kv :: d, k => if kv.1 = k then some kv.2 else dget? d k

/-- `dict(zip(ks, vs))`. -/
def dictZip (ks vs : List String) : Row :=
  (ks.zip vs).foldl (fun d kv => dset d kv.1 kv.2) []

/-- The state of a `DictCSV` instance: `header`, `rows` and `cols` as in
the source. -/
structure DictCSV where
  header : List String
  rows : List Row
  cols : List (String × List String)

/-- Column `j` of the data table (`table.T[j]` for a rectangular table). -/
def colAt (table : List (List String)) (j : ℕ) : List String :=
  table.map (fun r => r.getD j "")

/-- `DictCSV.__init__` on parsed CSV content: header row plus data rows.
`rows = [dict(zip(header, i)) for i in table]` and
`cols = dict(zip(header, table.T))`. -/
def DictCSV.ofTable (header : List String) (table : List (List String)) : DictCSV :=
  { header := header
    rows := table.map (fun r => dictZip header r)
    cols := header.enum.foldl (fun d jk => dset d jk.2 (colAt table jk.1)) [] }

/-- `DictCSV.add_col(name)`: append `name` to the header, add the field
(empty string) to every row, and add an all-empty column. -/
def DictCSV.add_col (c : DictCSV) (name : String) : DictCSV :=
  { header := c.header ++ [name]
    rows := c.rows.map (fun r => dset r name "")
    cols := dset c.cols name (c.rows.map (fun _ => "")) }

/-- One step of the `for k in self.header` loop of `set_row`:
`self.cols[k][row_id] = row[k]` (missing keys and out-of-range indices
raise). -/
def setColsStep (row : Row) (row_id : ℕ) (cols : List (String × List String))
    (k : String) : Except PyErr (List (String × List String)) :=
  match dget? row k with
  | none => Except.error PyErr.keyError
  | some v =>
    match dget? cols k with
    | none => Except.error PyErr.keyError
    | some col =>
      if row_id < col.length then Except.ok (dset cols k (col.set row_id v))
      else Except.error PyErr.indexError

/-- `DictCSV.set_row(row_id, row)`: replace the row and write `row[k]`
into `cols[k][row_id]` for every header key `k`.  Out-of-range indices
and missing keys raise. -/
def DictCSV.set_row (c : DictCSV) (row_id : ℕ) (row : Row) : Except PyErr DictCSV :=
  if row_id < c.rows.length then
    match c.header.foldlM (setColsStep row row_id) c.cols with
    | Except.error e => Except.error e
    | Except.ok cols =>
      Except.ok { c with rows := c.rows.set row_id row, cols := cols }
  else Except.error PyErr.indexError

/-- `f'_geo_admin{level}'`. -/
def adminName (level : ℕ) : String := "_geo_admin" ++ toString level

/-- The value `boundary.find(point)[0]["properties"]["shapeName"]`
produces, with junk defaults on the error paths (excluded where used). -/
noncomputable def resolveName (b : GeoBoundary) (p : Pt) : String :=
  (((b.find p).head?.getD junkFeature).shapeName?).getD ""

/-- The coordinate point `[*map(float, [row[long_col], row[lat_col]])]`
parses to, with junk defaults off the success path. -/
noncomputable def ptOf (pfloat : String → Option ℝ) (longCol latCol : String) (r : Row) : Pt :=
  { x := ((dget? r longCol).bind pfloat).getD 0
    y := ((dget? r latCol).bind pfloat).getD 0 }

/-- The body of the row loop of `CSV2GeoJSON.__init__`: parse the
coordinate columns as floats, resolve the region name, and
`set_row(row_id, {**row, col_name: region})`.  `pfloat` models Python's
`float()` string parser. -/
noncomputable def rowStep (pfloat : String → Option ℝ) (longCol latCol colName : String)
    (b : GeoBoundary) (st : DictCSV) (i : ℕ) (row : Row) : Except PyErr DictCSV :=
  match dget? row longCol with
  | none => Except.error PyErr.keyError
  | some s =>
    match dget? row latCol with
    | none => Except.error PyErr.keyError
    | some t =>
      match pfloat s with
      | none => Except.error PyErr.valueError
      | some x =>
        match pfloat t with
        | none => Except.error PyErr.valueError
        | some y =>
          match (b.find { x := x, y := y }).head? with
          | none => Except.error PyErr.indexError
          | some f =>
            match f.shapeName? with
            | none => Except.error PyErr.keyError
            | some nm => st.set_row i (dset row colName nm)

/-- `for row_id, row in enumerate(self.csv.rows): ...` — the iteration is
over the snapshot of `rows` at loop entry; each `set_row` only writes the
index already passed, so later reads are unaffected. -/
noncomputable def rowLoop (pfloat : String → Option ℝ) (longCol latCol colName : String)
    (b : GeoBoundary) : List (ℕ × Row) → DictCSV → Except PyErr DictCSV
  | [], st => Except.ok st
  | (i, row) :: rest, st =>
    match rowStep pfloat longCol latCol colName b st i row with
    | Except.error e => Except.error e
    | Except.ok st1 => rowLoop pfloat longCol latCol colName b rest st1

/-- `for level, boundary in enumerate(self.boundaries): ...` of
`CSV2GeoJSON.__init__`: add the `_geo_admin{level}` column, then run the
row loop. -/
noncomputable def levelLoop (pfloat : String → Option ℝ) (longCol latCol : String) :
    ℕ → List GeoBoundary → DictCSV → Except PyErr DictCSV
  | _, [], st => Except.ok st
  | level, b :: bs, st =>
    let st1 := st.add_col (adminName level)
    match rowLoop pfloat longCol latCol (adminName level) b st1.rows.enum st1 with
    | Except.error e => Except.error e
    | Except.ok st2 => levelLoop pfloat longCol latCol (level + 1) bs st2

/-- The join of `CSV2GeoJSON.__init__`: with zero boundary files it
returns before touching any record. -/
noncomputable def runJoin (pfloat : String → Option ℝ) (longCol latCol : String)
    (boundaries : List GeoBoundary) (csv : DictCSV) : Except PyErr DictCSV :=
  if boundaries.length = 0 then Except.ok csv
  else levelLoop pfloat longCol latCol 0 boundaries csv

/-- A GeoJSON point feature produced by `CSV2GeoJSON.__to_feature`:
`properties` is the row dict itself, coordinates are the parsed floats. -/
structure Marker where
  featureType : String
  properties : Row
  geometryType : String
  coordinates : ℝ × ℝ

/-- `CSV2GeoJSON.__to_feature(row)`. -/
noncomputable def to_feature (pfloat : String → Option ℝ) (longCol latCol : String)
    (row : Row) : Except PyErr Marker :=
  match dget? row longCol with
  | none => Except.error PyErr.keyError
  | some s =>
    match pfloat s with
    | none => Except.error PyErr.valueError
    | some x =>
      match dget? row latCol with
      | none => Except.error PyErr.keyError
      | some t =>
        match pfloat t with
        | none => Except.error PyErr.valueError
        | some y =>
          Except.ok
            { featureType := "Feature"
              properties := row
              geometryType := "Point"
              coordinates := (x, y) }

/-- The feature list of `CSV2GeoJSON.dump_markers`. -/
noncomputable def dump_markers (pfloat : String → Option ℝ) (longCol latCol : String)
    (rows : List Row) : Except PyErr (List Marker) :=
  rows.mapM (to_feature pfloat longCol latCol)

/-- C8: running the joiner with zero configured boundary sets is a no-op:
it returns the `DictCSV` state unchanged, field-for-field. -/
theorem claim_C8_zero_boundaries_noop (pfloat : String → Option ℝ) (longCol latCol : String)
    (csv : DictCSV) : runJoin pfloat longCol latCol [] csv = Except.ok csv := rfl

/-! ## Dictionary toolkit lemmas -/

lemma dget?_dset_self {β : Type} (d : List (String × β)) (k : String) (v : β) :
    dget? (dset d k v) k = some v := by
  induction d with
  | nil => simp [dset, dget?]
  | cons kv d ih =>
    by_cases h : kv.1 = k
    · simp [dset, dget?, h]
    · simp [dset, dget?, h, ih]

lemma dget?_dset_ne {β : Type} (d : List (String × β)) {k k' : String} (h : k' ≠ k) (v : β) :
    dget? (dset d k v) k' = dget? d k' := by
  have hkk' : ¬ k = k' := fun he => h he.symm
  induction d with
  | nil => simp [dset, dget?, hkk']
  | cons kv d ih =>
    by_cases hkv : kv.1 = k
    · simp [dset, dget?, hkv, hkk']
    · by_cases hkv' : kv.1 = k'
      · simp [dset, dget?, hkv, hkv', h]
      · simp [dset, dget?, hkv, hkv', ih]

lemma dget?_dset_isSome {β : Type} (d : List (String × β)) (k : String) (v : β) (k' : String) :
    (dget? (dset d k v) k').isSome = true ↔ (k' = k ∨ (dget? d k').isSome = true) := by
  by_cases h : k' = k
  · subst h
    simp [dget?_dset_self]
  · rw [dget?_dset_ne d h v]
    simp [h]

lemma dget?_append {β : Type} (d l : List (String × β)) (k : String) :
    dget? (d ++ l) k = ((dget? d k).map some).getD (dget? l k) := by
  induction d with
  | nil => simp [dget?]
  | cons kv d ih =>
    by_cases h : kv.1 = k
    · simp [dget?, h]
    · simp [dget?, h, ih]

lemma dget?_append_of_isSome {β : Type} {d : List (String × β)} {k : String}
    (h : (dget? d k).isSome = true) (l : List (String × β)) :
    dget? (d ++ l) k = dget? d k := by
  rw [dget?_append]
  rcases Option.isSome_iff_exists.mp h with ⟨v, hv⟩
  rw [hv]
  rfl

lemma dget?_append_of_none {β : Type} {d : List (String × β)} {k : String}
    (h : dget? d k = none) (l : List (String × β)) :
    dget? (d ++ l) k = dget? l k := by
  rw [dget?_append, h]
  rfl

lemma dset_of_absent {β : Type} {d : List (String × β)} {k : String}
    (h : dget? d k = none) (v : β) : dset d k v = d ++ [(k, v)] := by
  induction d with
  | nil => rfl
  | cons kv d ih =>
    rw [dget?] at h
    by_cases hkv : kv.1 = k
    · rw [if_pos hkv] at h
      cases h
    · rw [if_neg hkv] at h
      rw [dset, if_neg hkv, ih h, List.cons_append]

lemma dset_append_last {β : Type} {d : List (String × β)} {k : String}
    (h : dget? d k = none) (u w : β) : dset (d ++ [(k, u)]) k w = d ++ [(k, w)] := by
  induction d with
  | nil => simp [dset]
  | cons kv d ih =>
    rw [dget?] at h
    by_cases hkv : kv.1 = k
    · rw [if_pos hkv] at h
      cases h
    · rw [if_neg hkv] at h
      rw [List.cons_append, dset, if_neg hkv, ih h, List.cons_append]

lemma dget?_singleton {β : Type} (k k' : String) (v : β) :
    dget? [(k, v)] k' = if k = k' then some v else none := rfl

/-! ## Record invariants -/

/-- A row's key set is exactly the header's field set. -/
def RowMatches (hdr : List String) (r : Row) : Prop :=
  ∀ k, (dget? r k).isSome = true ↔ k ∈ hdr

/-- Every row of the `DictCSV` matches the header. -/
def DictCSV.RowsInv (c : DictCSV) : Prop := ∀ r ∈ c.rows, RowMatches c.header r

/-- Well-formedness of `cols`: every header key has a column, and every
stored column is long enough for every row index. -/
def ColsWF (c : DictCSV) : Prop :=
  (∀ k ∈ c.header, (dget? c.cols k).isSome = true) ∧
  (∀ k col, dget? c.cols k = some col → c.rows.length ≤ col.length)

lemma foldl_dset_isSome {α β : Type} (key : α → String) (val : α → β) :
    ∀ (l : List α) (d0 : List (String × β)) (k : String),
      (dget? (l.foldl (fun d a => dset d (key a) (val a)) d0) k).isSome = true ↔
        (k ∈ l.map key ∨ (dget? d0 k).isSome = true)
  | [], d0, k => by simp
  | a :: l, d0, k => by
    rw [List.foldl_cons, foldl_dset_isSome key val l (dset d0 (key a) (val a)) k,
      dget?_dset_isSome]
    simp only [List.map_cons, List.mem_cons]
    tauto

lemma foldl_dset_values {α β : Type} (key : α → String) (val : α → β) (P : β → Prop) :
    ∀ (l : List α) (d0 : List (String × β)),
      (∀ a ∈ l, P (val a)) → (∀ k v, dget? d0 k = some v → P v) →
      ∀ k v, dget? (l.foldl (fun d a => dset d (key a) (val a)) d0) k = some v → P v
  | [], d0, _, hd0, k, v => hd0 k v
  | a :: l, d0, hl, hd0, k, v => by
    rw [List.foldl_cons]
    refine foldl_dset_values key val P l (dset d0 (key a) (val a))
      (fun b hb => hl b (List.mem_cons_of_mem a hb)) ?_ k v
    intro k' v' hv'
    by_cases hk' : k' = key a
    · subst hk'
      rw [dget?_dset_self] at hv'
      cases hv'
      exact hl a (List.mem_cons_self a l)
    · rw [dget?_dset_ne d0 hk' (val a)] at hv'
      exact hd0 k' v' hv'

lemma RowMatches_dictZip (ks vs : List String) (h : ks.length ≤ vs.length) :
    RowMatches ks (dictZip ks vs) := by
  intro k
  rw [dictZip, foldl_dset_isSome Prod.fst Prod.snd (ks.zip vs) [] k]
  rw [List.map_fst_zip ks vs h]
  simp [dget?]

lemma ofTable_RowsInv (header : List String) (table : List (List String))
    (h : ∀ row ∈ table, header.length ≤ row.length) :
    DictCSV.RowsInv (DictCSV.ofTable header table) := by
  intro r hr
  obtain ⟨row, hrow, rfl⟩ := List.mem_map.mp hr
  exact RowMatches_dictZip header row (h row hrow)

lemma ofTable_ColsWF (header : List String) (table : List (List String)) :
    ColsWF (DictCSV.ofTable header table) := by
  constructor
  · intro k hk
    rw [DictCSV.ofTable, foldl_dset_isSome (fun jk : ℕ × String => jk.2)
      (fun jk : ℕ × String => colAt table jk.1) header.enum [] k]
    left
    rw [List.enum_map_snd]
    exact hk
  · intro k col hcol
    have hP := foldl_dset_values (fun jk : ℕ × String => jk.2)
      (fun jk : ℕ × String => colAt table jk.1)
      (fun col => table.length ≤ col.length) header.enum []
      (fun a _ => le_of_eq (List.length_map table _).symm)
      (fun k v hv => by cases hv) k col hcol
    simpa [DictCSV.ofTable, List.length_map] using hP

lemma RowMatches_dset_mem {hdr : List String} {r : Row} (hm : RowMatches hdr r)
    {name : String} (hname : name ∈ hdr) (v : String) : RowMatches hdr (dset r name v) := by
  intro k
  rw [dget?_dset_isSome]
  constructor
  · rintro (rfl | hs)
    · exact hname
    · exact (hm k).mp hs
  · intro hk
    exact Or.inr ((hm k).mpr hk)

lemma RowMatches_add {hdr : List String} {r : Row} (hm : RowMatches hdr r)
    (name : String) (v : String) : RowMatches (hdr ++ [name]) (dset r name v) := by
  intro k
  rw [dget?_dset_isSome]
  simp only [List.mem_append, List.mem_singleton]
  rw [hm k]
  tauto

lemma add_col_RowsInv (c : DictCSV) (hinv : c.RowsInv) (name : String) :
    (c.add_col name).RowsInv := by
  intro r hr
  obtain ⟨r0, hr0, rfl⟩ := List.mem_map.mp hr
  exact RowMatches_add (hinv r0 hr0) name ""

lemma add_col_ColsWF (c : DictCSV) (hcw : ColsWF c) (name : String) :
    ColsWF (c.add_col name) := by
  obtain ⟨hpres, hlen⟩ := hcw
  constructor
  · intro k hk
    simp only [DictCSV.add_col, List.mem_append, List.mem_singleton] at hk ⊢
    rw [dget?_dset_isSome]
    rcases hk with hk | rfl
    · exact Or.inr (hpres k hk)
    · exact Or.inl rfl
  · intro k col hcol
    simp only [DictCSV.add_col] at hcol ⊢
    simp only [List.length_map]
    by_cases hkn : k = name
    · subst hkn
      rw [dget?_dset_self] at hcol
      cases hcol
      simp
    · rw [dget?_dset_ne c.cols hkn _] at hcol
      exact hlen k col hcol

lemma setCols_fold_ok (row : Row) (i n : ℕ) (hin : i < n) :
    ∀ (ks : List String) (cols : List (String × List String)),
      (∀ k ∈ ks, (dget? row k).isSome = true) →
      (∀ k ∈ ks, (dget? cols k).isSome = true) →
      (∀ k col, dget? cols k = some col → n ≤ col.length) →
      ∃ cols', ks.foldlM (setColsStep row i) cols = Except.ok cols' ∧
        (∀ k, (dget? cols k).isSome = true → (dget? cols' k).isSome = true) ∧
        (∀ k col, dget? cols' k = some col → n ≤ col.length)
  | [], cols, _, _, hlen => ⟨cols, rfl, fun _ h => h, hlen⟩
  | k :: ks, cols, hrow, hpres, hlen => by
    obtain ⟨v, hv⟩ := Option.isSome_iff_exists.mp (hrow k (List.mem_cons_self k ks))
    obtain ⟨col, hcol⟩ := Option.isSome_iff_exists.mp (hpres k (List.mem_cons_self k ks))
    have hic : i < col.length := lt_of_lt_of_le hin (hlen k col hcol)
    have hstep : setColsStep row i cols k = Except.ok (dset cols k (col.set i v)) := by
      rw [setColsStep]
      simp only [hv, hcol]
      rw [if_pos hic]
    have hpres1 : ∀ k', (dget? cols k').isSome = true →
        (dget? (dset cols k (col.set i v)) k').isSome = true := by
      intro k' h
      rw [dget?_dset_isSome]
      exact Or.inr h
    have hlen1 : ∀ k' col', dget? (dset cols k (col.set i v)) k' = some col' →
        n ≤ col'.length := by
      intro k' col' hcol'
      by_cases hk' : k' = k
      · subst hk'
        rw [dget?_dset_self] at hcol'
        cases hcol'
        rw [List.length_set]
        exact hlen k' col hcol
      · rw [dget?_dset_ne cols hk' _] at hcol'
        exact hlen k' col' hcol'
    obtain ⟨cols', hfold, hmono, hlen'⟩ := setCols_fold_ok row i n hin ks
      (dset cols k (col.set i v))
      (fun k' hk' => hrow k' (List.mem_cons_of_mem k hk'))
      (fun k' hk' => hpres1 k' (hpres k' (List.mem_cons_of_mem k hk')))
      hlen1
    refine ⟨cols', ?_, fun k' h => hmono k' (hpres1 k' h), hlen'⟩
    rw [List.foldlM_cons, hstep]
    simpa using hfold

lemma mem_set_or {α : Type} : ∀ (l : List α) (i : ℕ) (x a : α), a ∈ l.set i x → a ∈ l ∨ a = x
  | [], _, _, _, h => Or.inl h
  | b :: l, 0, x, a, h => by
    rcases List.mem_cons.mp h with rfl | h'
    · exact Or.inr rfl
    · exact Or.inl (List.mem_cons_of_mem b h')
  | b :: l, i + 1, x, a, h => by
    rcases List.mem_cons.mp h with rfl | h'
    · exact Or.inl (List.mem_cons_self a l)
    · rcases mem_set_or l i x a h' with h2 | h2
      · exact Or.inl (List.mem_cons_of_mem b h2)
      · exact Or.inr h2

lemma set_append_cons {α : Type} : ∀ (l₁ : List α) (x y : α) (l₂ : List α),
    (l₁ ++ x :: l₂).set l₁.length y = l₁ ++ y :: l₂
  | [], _, _, _ => rfl
  | a :: l, x, y, l₂ => by
    simp only [List.cons_append, List.length_cons, List.set_cons_succ]
    rw [set_append_cons l x y l₂]

lemma set_row_ok (c : DictCSV) (i : ℕ) (r : Row)
    (hi : i < c.rows.length)
    (hr : ∀ k ∈ c.header, (dget? r k).isSome = true)
    (hcw : ColsWF c) :
    ∃ c', c.set_row i r = Except.ok c' ∧ c'.header = c.header ∧
      c'.rows = c.rows.set i r ∧ ColsWF c' := by
  obtain ⟨hpres, hlen⟩ := hcw
  obtain ⟨cols', hfold, hmono, hlen'⟩ :=
    setCols_fold_ok r i c.rows.length hi c.header c.cols hr (fun k hk => hpres k hk) hlen
  refine ⟨{ c with rows := c.rows.set i r, cols := cols' }, ?_, rfl, rfl, ?_⟩
  · rw [DictCSV.set_row, if_pos hi, hfold]
  · constructor
    · intro k hk
      exact hmono k (hpres k hk)
    · intro k col hcol
      simp only [List.length_set]
      exact hlen' k col hcol

/-- C10 counterexample: `set_row` with a row that contains all header
fields plus an extra one succeeds, yet the stored row's key set is then a
strict superset of the header's field set, so the claimed invariant is
not re-established. -/
theorem claim_C10_counterexample :
    (∃ c', (DictCSV.ofTable ["a"] [["x"]]).set_row 0 [("a", "x"), ("b", "y")] =
        Except.ok c' ∧
      c'.rows = [[("a", "x"), ("b", "y")]] ∧ c'.header = ["a"]) ∧
    (dget? ([("a", "x"), ("b", "y")] : Row) "a").isSome = true ∧
    (dget? ([("a", "x"), ("b", "y")] : Row) "b").isSome = true ∧
    "b" ∉ (["a"] : List String) := by
  refine ⟨⟨_, rfl, rfl, rfl⟩, rfl, rfl, by decide⟩

/-- C10 amended: construction from a table whose rows cover the header
yields the uniform-field invariant; `add_col` preserves it; `set_row`
re-establishes it when the new row's key set is exactly the header's
field set (a strict superset also succeeds but breaks the invariant, see
the counterexample). -/
theorem claim_C10_uniform_fields_invariant (header : List String)
    (table : List (List String)) (name : String) (c c' : DictCSV) (i : ℕ) (r : Row) :
    ((∀ row ∈ table, header.length ≤ row.length) →
      DictCSV.RowsInv (DictCSV.ofTable header table)) ∧
    (DictCSV.RowsInv c → DictCSV.RowsInv (c.add_col name)) ∧
    (DictCSV.RowsInv c → RowMatches c.header r → c.set_row i r = Except.ok c' →
      c'.header = c.header ∧ DictCSV.RowsInv c') := by
  refine ⟨ofTable_RowsInv header table, fun hinv => add_col_RowsInv c hinv name, ?_⟩
  intro hinv hm hok
  rw [DictCSV.set_row] at hok
  by_cases hi : i < c.rows.length
  · rw [if_pos hi] at hok
    cases hfold : c.header.foldlM (setColsStep r i) c.cols with
    | error e =>
      rw [hfold] at hok
      cases hok
    | ok cols' =>
      rw [hfold] at hok
      cases hok
      refine ⟨rfl, ?_⟩
      intro r' hr'
      rcases mem_set_or c.rows i r r' hr' with h' | rfl
      · exact hinv r' h'
      · exact hm
  · rw [if_neg hi] at hok
    cases hok

theorem claim_C10_uniform_fields_invariant_witness :
    DictCSV.RowsInv (DictCSV.ofTable ["a"] [["x"]]) ∧
    DictCSV.RowsInv ((DictCSV.ofTable ["a"] [["x"]]).add_col "c") ∧
    (∃ c', (DictCSV.ofTable ["a"] [["x"]]).set_row 0 [("a", "z")] = Except.ok c' ∧
      c'.header = (DictCSV.ofTable ["a"] [["x"]]).header ∧ DictCSV.RowsInv c') := by
  have hlen : ∀ row ∈ [["x"]], (["a"] : List String).length ≤ row.length := by
    intro row hrow
    rw [List.mem_singleton] at hrow
    subst hrow
    decide
  have hm : RowMatches (DictCSV.ofTable ["a"] [["x"]]).header [("a", "z")] := by
    intro k
    by_cases hk : "a" = k
    · subst hk
      simp [dget?, DictCSV.ofTable]
    · rw [dget?, if_neg hk]
      exact iff_of_false (by simp [dget?]) (by
        simp only [DictCSV.ofTable, List.mem_singleton]
        exact fun h => hk h.symm)
  have h1 := (claim_C10_uniform_fields_invariant ["a"] [["x"]] "c"
    (DictCSV.ofTable ["a"] [["x"]]) (DictCSV.ofTable ["a"] [["x"]]) 0 [("a", "z")]).1 hlen
  refine ⟨h1, ?_, ?_⟩
  · exact (claim_C10_uniform_fields_invariant ["a"] [["x"]] "c"
      (DictCSV.ofTable ["a"] [["x"]]) (DictCSV.ofTable ["a"] [["x"]]) 0 [("a", "z")]).2.1 h1
  · obtain ⟨hh, hinv'⟩ := (claim_C10_uniform_fields_invariant ["a"] [["x"]] "c"
      (DictCSV.ofTable ["a"] [["x"]]) _ 0 [("a", "z")]).2.2 h1 hm rfl
    exact ⟨_, rfl, hh, hinv'⟩

/-! ## Coordinate parsing -/

/-- A record's coordinate columns are present and parse as floats. -/
def Parses (pfloat : String → Option ℝ) (longCol latCol : String) (r : Row) : Prop :=
  (∃ s x, dget? r longCol = some s ∧ pfloat s = some x) ∧
  (∃ t y, dget? r latCol = some t ∧ pfloat t = some y)

lemma to_feature_ok (pfloat : String → Option ℝ) (longCol latCol : String) (r : Row)
    (h : Parses pfloat longCol latCol r) :
    to_feature pfloat longCol latCol r = Except.ok
      { featureType := "Feature"
        properties := r
        geometryType := "Point"
        coordinates := (((dget? r longCol).bind pfloat).getD 0,
                        ((dget? r latCol).bind pfloat).getD 0) } := by
  obtain ⟨⟨s, x, hs, hx⟩, ⟨t, y, ht, hy⟩⟩ := h
  rw [to_feature]
  simp [hs, hx, ht, hy]

/-- C6: with all coordinate columns parseable, marker emission produces
one feature per record in the same order, whose `properties` is the row
mapping itself (including any `_geo_admin*` fields, unmodified) and whose
geometry is a Point with the parsed numeric coordinates. -/
theorem claim_C6_marker_roundtrip (pfloat : String → Option ℝ) (longCol latCol : String)
    (rows : List Row) (h : ∀ r ∈ rows, Parses pfloat longCol latCol r) :
    dump_markers pfloat longCol latCol rows = Except.ok (rows.map (fun r =>
      { featureType := "Feature"
        properties := r
        geometryType := "Point"
        coordinates := (((dget? r longCol).bind pfloat).getD 0,
                        ((dget? r latCol).bind pfloat).getD 0) })) := by
  induction rows with
  | nil => rfl
  | cons r rows ih =>
    have ih' := ih (fun r' hr' => h r' (List.mem_cons_of_mem r hr'))
    rw [dump_markers] at ih' ⊢
    rw [List.mapM_cons, to_feature_ok pfloat longCol latCol r (h r (List.mem_cons_self r rows)),
      ih']
    rfl

/-- The concrete float parser used to instantiate theorems: parses the
single string `"1"`. -/
noncomputable def pfW : String → Option ℝ := fun s => if s = "1" then some 1 else none

/-- The concrete parseable row used to instantiate theorems. -/
def rowW : Row := [("lon", "1"), ("lat", "1")]

lemma rowW_parses : Parses pfW "lon" "lat" rowW :=
  ⟨⟨"1", 1, rfl, by simp [pfW]⟩, ⟨"1", 1, rfl, by simp [pfW]⟩⟩

theorem claim_C6_marker_roundtrip_witness :
    (∀ r ∈ [rowW], Parses pfW "lon" "lat" r) ∧
      dump_markers pfW "lon" "lat" [rowW] = Except.ok ([rowW].map (fun r =>
        { featureType := "Feature"
          properties := r
          geometryType := "Point"
          coordinates := (((dget? r "lon").bind pfW).getD 0,
                          ((dget? r "lat").bind pfW).getD 0) })) := by
  have h : ∀ r ∈ [rowW], Parses pfW "lon" "lat" r := by
    intro r hr
    rw [List.mem_singleton] at hr
    subst hr
    exact rowW_parses
  exact ⟨h, claim_C6_marker_roundtrip pfW "lon" "lat" [rowW] h⟩

lemma to_feature_ne_ok (pfloat : String → Option ℝ) (longCol latCol : String) (r : Row)
    (h : ¬ Parses pfloat longCol latCol r) (m : Marker) :
    to_feature pfloat longCol latCol r ≠ Except.ok m := by
  cases hs : dget? r longCol with
  | none => rw [to_feature]; simp [hs]
  | some s =>
    cases hx : pfloat s with
    | none => rw [to_feature]; simp [hs, hx]
    | some x =>
      cases ht : dget? r latCol with
      | none => rw [to_feature]; simp [hs, hx, ht]
      | some t =>
        cases hy : pfloat t with
        | none => rw [to_feature]; simp [hs, hx, ht, hy]
        | some y => exact absurd ⟨⟨s, x, hs, hx⟩, ⟨t, y, ht, hy⟩⟩ h

lemma rowStep_error_of_not_parses (pfloat : String → Option ℝ)
    (longCol latCol colName : String) (b : GeoBoundary) (st : DictCSV) (i : ℕ) (row : Row)
    (h : ¬ Parses pfloat longCol latCol row) :
    ∃ e, rowStep pfloat longCol latCol colName b st i row = Except.error e := by
  cases hs : dget? row longCol with
  | none => exact ⟨PyErr.keyError, by rw [rowStep]; simp [hs]⟩
  | some s =>
    cases ht : dget? row latCol with
    | none => exact ⟨PyErr.keyError, by rw [rowStep]; simp [hs, ht]⟩
    | some t =>
      cases hx : pfloat s with
      | none => exact ⟨PyErr.valueError, by rw [rowStep]; simp [hs, ht, hx]⟩
      | some x =>
        cases hy : pfloat t with
        | none => exact ⟨PyErr.valueError, by rw [rowStep]; simp [hs, ht, hx, hy]⟩
        | some y => exact absurd ⟨⟨s, x, hs, hx⟩, ⟨t, y, ht, hy⟩⟩ h

lemma rowLoop_error (pfloat : String → Option ℝ) (longCol latCol colName : String)
    (b : GeoBoundary) :
    ∀ (pairs : List (ℕ × Row)) (st : DictCSV),
      (∃ pr ∈ pairs, ¬ Parses pfloat longCol latCol pr.2) →
      ∃ e, rowLoop pfloat longCol latCol colName b pairs st = Except.error e := by
  intro pairs
  induction pairs with
  | nil =>
    rintro st ⟨pr, hpr, _⟩
    cases hpr
  | cons p rest ih =>
    rintro st ⟨pr, hpr, hnp⟩
    obtain ⟨i, row⟩ := p
    rcases List.mem_cons.mp hpr with rfl | hpr'
    · obtain ⟨e, he⟩ := rowStep_error_of_not_parses pfloat longCol latCol colName b st i row hnp
      exact ⟨e, by rw [rowLoop, he]⟩
    · cases hstep : rowStep pfloat longCol latCol colName b st i row with
      | error e => exact ⟨e, by rw [rowLoop, hstep]⟩
      | ok st1 =>
        obtain ⟨e, he⟩ := ih st1 ⟨pr, hpr', hnp⟩
        exact ⟨e, by rw [rowLoop, hstep]; exact he⟩

lemma mem_enumFrom_of_mem {α : Type} {a : α} :
    ∀ (l : List α) (k : ℕ), a ∈ l → ∃ i, (i, a) ∈ List.enumFrom k l
  | [], _, h => absurd h (List.not_mem_nil a)
  | x :: xs, k, h => by
    rcases List.mem_cons.mp h with rfl | h'
    · exact ⟨k, show (k, a) ∈ (k, a) :: List.enumFrom (k + 1) xs from
        List.mem_cons_self _ _⟩
    · obtain ⟨i, hi⟩ := mem_enumFrom_of_mem xs (k + 1) h'
      exact ⟨i, show (i, a) ∈ (k, x) :: List.enumFrom (k + 1) xs from
        List.mem_cons_of_mem _ hi⟩

/-- C7: one record whose coordinate columns are missing or unparseable
makes the whole join fail, and likewise marker emission: no per-row skip,
no partial output. -/
theorem claim_C7_invalid_coordinate_aborts (pfloat : String → Option ℝ)
    (longCol latCol : String) (boundaries : List GeoBoundary) (csv : DictCSV)
    (hbad : ∃ r ∈ csv.rows, ¬ Parses pfloat longCol latCol r)
    (hb : boundaries ≠ [])
    (hlc : ∀ level, adminName level ≠ longCol)
    (hlt : ∀ level, adminName level ≠ latCol) :
    (∃ e, runJoin pfloat longCol latCol boundaries csv = Except.error e) ∧
    (∃ e, dump_markers pfloat longCol latCol csv.rows = Except.error e) := by
  obtain ⟨r, hr, hnp⟩ := hbad
  constructor
  · cases boundaries with
    | nil => exact absurd rfl hb
    | cons b bs =>
      have hmem1 : dset r (adminName 0) "" ∈ (csv.add_col (adminName 0)).rows :=
        List.mem_map_of_mem (fun r => dset r (adminName 0) "") hr
      obtain ⟨i, hi⟩ := mem_enumFrom_of_mem (csv.add_col (adminName 0)).rows 0 hmem1
      have hnp1 : ¬ Parses pfloat longCol latCol (dset r (adminName 0) "") := by
        intro hp
        apply hnp
        obtain ⟨⟨s, x, hs, hx⟩, ⟨t, y, ht, hy⟩⟩ := hp
        rw [dget?_dset_ne r (fun he => hlc 0 he.symm) _] at hs
        rw [dget?_dset_ne r (fun he => hlt 0 he.symm) _] at ht
        exact ⟨⟨s, x, hs, hx⟩, ⟨t, y, ht, hy⟩⟩
      obtain ⟨e, he⟩ := rowLoop_error pfloat longCol latCol (adminName 0) b
        (csv.add_col (adminName 0)).rows.enum (csv.add_col (adminName 0))
        ⟨(i, dset r (adminName 0) ""), hi, hnp1⟩
      refine ⟨e, ?_⟩
      rw [runJoin, if_neg (by simp), levelLoop, he]
  · exact mapM_error_of_exists _ csv.rows
      ⟨r, hr, to_feature_ne_ok pfloat longCol latCol r hnp⟩

lemma adminName_ne_short (level : ℕ) (s : String) (hs : s.length < 10) :
    adminName level ≠ s := by
  intro h
  have hl := congrArg String.length h
  rw [adminName, String.length_append] at hl
  have h10 : ("_geo_admin" : String).length = 10 := rfl
  omega

theorem claim_C7_invalid_coordinate_aborts_witness :
    (∃ r ∈ (DictCSV.ofTable ["lon", "lat"] [["x", "1"]]).rows,
      ¬ Parses pfW "lon" "lat" r) ∧
    ([wb2] : List GeoBoundary) ≠ [] ∧
    (∀ level, adminName level ≠ "lon") ∧ (∀ level, adminName level ≠ "lat") ∧
    ((∃ e, runJoin pfW "lon" "lat" [wb2]
        (DictCSV.ofTable ["lon", "lat"] [["x", "1"]]) = Except.error e) ∧
     (∃ e, dump_markers pfW "lon" "lat"
        (DictCSV.ofTable ["lon", "lat"] [["x", "1"]]).rows = Except.error e)) := by
  have hbad : ∃ r ∈ (DictCSV.ofTable ["lon", "lat"] [["x", "1"]]).rows,
      ¬ Parses pfW "lon" "lat" r := by
    refine ⟨dictZip ["lon", "lat"] ["x", "1"], List.mem_cons_self _ _, ?_⟩
    rintro ⟨⟨s, x, hs, hx⟩, -⟩
    have hs' : (some "x" : Option String) = some s := hs
    cases hs'
    simp [pfW] at hx
  have hb : ([wb2] : List GeoBoundary) ≠ [] := by simp
  have hlc : ∀ level, adminName level ≠ "lon" :=
    fun level => adminName_ne_short level "lon" (by decide)
  have hlt : ∀ level, adminName level ≠ "lat" :=
    fun level => adminName_ne_short level "lat" (by decide)
  exact ⟨hbad, hb, hlc, hlt,
    claim_C7_invalid_coordinate_aborts pfW "lon" "lat" [wb2]
      (DictCSV.ofTable ["lon", "lat"] [["x", "1"]]) hbad hb hlc hlt⟩

/-! ## The join: success path -/

/-- A boundary set whose features all carry a `shapeName`, with at least
one feature — the shape of a well-formed geoBoundaries file. -/
def GoodBoundary (b : GeoBoundary) : Prop :=
  b.places ≠ [] ∧ ∀ f ∈ b.places, f.shapeName?.isSome = true

/-- Fallback boundary value for `List.getD`. -/
def junkBoundary : GeoBoundary := { places := [] }

lemma find_mem_places (b : GeoBoundary) (p : Pt) (hne : b.places ≠ []) :
    ∀ f ∈ b.find p, f ∈ b.places := by
  intro f hf
  by_cases hfil : b.places.filter (fun g => g.shape.contains p) = []
  · have hout : ∀ g ∈ b.places, g.shape.contains p = false := by
      intro g hg
      have := List.filter_eq_nil_iff.mp hfil g hg
      simpa using this
    rw [find_fallback b p hout hne] at hf
    rw [List.mem_singleton] at hf
    subst hf
    have hD : (b.places.map (fun f => haversine (f.shape.nearest p) p)) ≠ [] := by
      simpa [List.map_eq_nil_iff] using hne
    have hi := pyindex_lt_length (pymin_mem hD)
    rw [List.length_map] at hi
    exact getD_mem_of_lt _ _ hi _
  · rw [find_of_contains b p hfil] at hf
    exact (List.mem_filter.mp hf).1

lemma find_ne_nil (b : GeoBoundary) (p : Pt) (hne : b.places ≠ []) : b.find p ≠ [] := by
  by_cases hfil : b.places.filter (fun g => g.shape.contains p) = []
  · have hout : ∀ g ∈ b.places, g.shape.contains p = false := by
      intro g hg
      have := List.filter_eq_nil_iff.mp hfil g hg
      simpa using this
    rw [find_fallback b p hout hne]
    exact List.cons_ne_nil _ _
  · rw [find_of_contains b p hfil]
    exact hfil

lemma resolveName_spec (b : GeoBoundary) (p : Pt) (hgb : GoodBoundary b) :
    ∃ f nm, (b.find p).head? = some f ∧ f.shapeName? = some nm ∧ resolveName b p = nm := by
  obtain ⟨hne, hnames⟩ := hgb
  cases hcase : b.find p with
  | nil => exact absurd hcase (find_ne_nil b p hne)
  | cons f l =>
    have hfmem : f ∈ b.places :=
      find_mem_places b p hne f (by rw [hcase]; exact List.mem_cons_self f l)
    obtain ⟨nm, hnm⟩ := Option.isSome_iff_exists.mp (hnames f hfmem)
    refine ⟨f, nm, rfl, hnm, ?_⟩
    rw [resolveName, hcase]
    simp [hnm]

lemma rowStep_ok (pfloat : String → Option ℝ) (longCol latCol colName : String)
    (b : GeoBoundary) (st : DictCSV) (i : ℕ) (row : Row)
    (hp : Parses pfloat longCol latCol row)
    (hgb : GoodBoundary b)
    (hi : i < st.rows.length)
    (hrk : ∀ k ∈ st.header, (dget? row k).isSome = true)
    (hcw : ColsWF st) :
    ∃ st', rowStep pfloat longCol latCol colName b st i row = Except.ok st' ∧
      st'.header = st.header ∧
      st'.rows = st.rows.set i
        (dset row colName (resolveName b (ptOf pfloat longCol latCol row))) ∧
      ColsWF st' := by
  obtain ⟨⟨s, x, hs, hx⟩, ⟨t, y, ht, hy⟩⟩ := hp
  obtain ⟨f, nm, hhead, hnm, hres⟩ :=
    resolveName_spec b (ptOf pfloat longCol latCol row) hgb
  have hpt : ({ x := x, y := y } : Pt) = ptOf pfloat longCol latCol row := by
    rw [ptOf, hs, ht]
    simp [hx, hy]
  have hrk' : ∀ k ∈ st.header, (dget? (dset row colName nm) k).isSome = true := by
    intro k hk
    rw [dget?_dset_isSome]
    exact Or.inr (hrk k hk)
  obtain ⟨c', hok, hh, hrows, hcw'⟩ := set_row_ok st i (dset row colName nm) hi hrk' hcw
  refine ⟨c', ?_, hh, by rw [hrows, hres], hcw'⟩
  rw [rowStep]
  simp only [hs, ht, hx, hy]
  rw [hpt]
  simp only [hhead, hnm]
  exact hok

lemma rowLoop_ok (pfloat : String → Option ℝ) (longCol latCol colName : String)
    (b : GeoBoundary) (hgb : GoodBoundary b) :
    ∀ (todo done : List Row) (st : DictCSV),
      st.rows = done ++ todo →
      st.RowsInv → ColsWF st → colName ∈ st.header →
      (∀ r ∈ todo, Parses pfloat longCol latCol r) →
      ∃ st', rowLoop pfloat longCol latCol colName b
          (List.enumFrom done.length todo) st = Except.ok st' ∧
        st'.header = st.header ∧
        st'.rows = done ++ todo.map
          (fun r => dset r colName (resolveName b (ptOf pfloat longCol latCol r))) ∧
        st'.RowsInv ∧ ColsWF st'
  | [], done, st, hrows, hinv, hcw, _, _ =>
    ⟨st, rfl, rfl, by rw [hrows]; rfl, hinv, hcw⟩
  | r :: todo', done, st, hrows, hinv, hcw, hcn, hpar => by
    have hrmem : r ∈ st.rows := by
      rw [hrows]
      exact List.mem_append_right done (List.mem_cons_self r todo')
    have hi : done.length < st.rows.length := by
      rw [hrows, List.length_append, List.length_cons]
      omega
    have hrk : ∀ k ∈ st.header, (dget? r k).isSome = true :=
      fun k hk => (hinv r hrmem k).mpr hk
    obtain ⟨st1, hstep, hh1, hrows1, hcw1⟩ :=
      rowStep_ok pfloat longCol latCol colName b st done.length r
        ⟨(hpar r (List.mem_cons_self r todo')).1, (hpar r (List.mem_cons_self r todo')).2⟩
        hgb hi hrk hcw
    have hrows1' : st1.rows = done ++
        dset r colName (resolveName b (ptOf pfloat longCol latCol r)) :: todo' := by
      rw [hrows1, hrows, set_append_cons]
    have hinv1 : st1.RowsInv := by
      intro r' hr'
      rw [hrows1] at hr'
      rw [hh1]
      rcases mem_set_or st.rows done.length _ r' hr' with h' | rfl
      · exact hinv r' h'
      · exact RowMatches_dset_mem (hinv r hrmem) hcn _
    obtain ⟨st2, hloop, hh2, hrows2, hinv2, hcw2⟩ :=
      rowLoop_ok pfloat longCol latCol colName b hgb todo'
        (done ++ [dset r colName (resolveName b (ptOf pfloat longCol latCol r))]) st1
        (by rw [hrows1', List.append_assoc, List.singleton_append])
        hinv1 hcw1 (by rw [hh1]; exact hcn)
        (fun r' hr' => hpar r' (List.mem_cons_of_mem r hr'))
    refine ⟨st2, ?_, by rw [hh2, hh1], ?_, hinv2, hcw2⟩
    · show rowLoop pfloat longCol latCol colName b
        ((done.length, r) :: List.enumFrom (done.length + 1) todo') st = Except.ok st2
      rw [rowLoop, hstep]
      have hlen : (done ++ [dset r colName
          (resolveName b (ptOf pfloat longCol latCol r))]).length = done.length + 1 := by
        simp
      rw [hlen] at hloop
      exact hloop
    · rw [hrows2, List.append_assoc, List.singleton_append, List.map_cons]

lemma dset_dset_same {β : Type} (d : List (String × β)) (k : String) (v w : β) :
    dset (dset d k v) k w = dset d k w := by
  induction d with
  | nil => simp [dset]
  | cons kv d ih =>
    by_cases hkv : kv.1 = k
    · simp [dset, hkv]
    · simp [dset, hkv, ih]

lemma Parses_append (pfloat : String → Option ℝ) {longCol latCol : String} {r : Row}
    (h : Parses pfloat longCol latCol r) (l : Row) : Parses pfloat longCol latCol (r ++ l) := by
  obtain ⟨⟨s, x, hs, hx⟩, ⟨t, y, ht, hy⟩⟩ := h
  refine ⟨⟨s, x, ?_, hx⟩, ⟨t, y, ?_, hy⟩⟩
  · rw [dget?_append_of_isSome (by rw [hs]; rfl) l, hs]
  · rw [dget?_append_of_isSome (by rw [ht]; rfl) l, ht]

lemma ptOf_append (pfloat : String → Option ℝ) {longCol latCol : String} {r : Row}
    (h : Parses pfloat longCol latCol r) (l : Row) :
    ptOf pfloat longCol latCol (r ++ l) = ptOf pfloat longCol latCol r := by
  obtain ⟨⟨s, x, hs, _⟩, ⟨t, y, ht, _⟩⟩ := h
  rw [ptOf, ptOf, dget?_append_of_isSome (by rw [hs]; rfl) l,
    dget?_append_of_isSome (by rw [ht]; rfl) l]

lemma Parses_dset_ne (pfloat : String → Option ℝ) {longCol latCol k : String} {r : Row}
    (h : Parses pfloat longCol latCol r) (hlc : longCol ≠ k) (hlt : latCol ≠ k) (v : String) :
    Parses pfloat longCol latCol (dset r k v) := by
  obtain ⟨⟨s, x, hs, hx⟩, ⟨t, y, ht, hy⟩⟩ := h
  exact ⟨⟨s, x, by rw [dget?_dset_ne r hlc v]; exact hs, hx⟩,
    ⟨t, y, by rw [dget?_dset_ne r hlt v]; exact ht, hy⟩⟩

lemma ptOf_dset_ne (pfloat : String → Option ℝ) {longCol latCol k : String} (r : Row)
    (hlc : longCol ≠ k) (hlt : latCol ≠ k) (v : String) :
    ptOf pfloat longCol latCol (dset r k v) = ptOf pfloat longCol latCol r := by
  rw [ptOf, ptOf, dget?_dset_ne r hlc v, dget?_dset_ne r hlt v]

lemma range_succ_map {α : Type} (g : ℕ → α) (n : ℕ) :
    (List.range (n + 1)).map g = g 0 :: (List.range n).map (fun j => g (j + 1)) := by
  rw [List.range_succ_eq_map, List.map_cons, List.map_map]
  exact congrArg (g 0 :: ·) (List.map_congr_left (fun a _ => rfl))

lemma levelLoop_ok (pfloat : String → Option ℝ) (longCol latCol : String) :
    ∀ (bs : List GeoBoundary) (level : ℕ) (st : DictCSV),
      (∀ b ∈ bs, GoodBoundary b) →
      st.RowsInv → ColsWF st →
      (∀ r ∈ st.rows, Parses pfloat longCol latCol r) →
      longCol ∈ st.header → latCol ∈ st.header →
      (∀ j, j < bs.length → adminName (level + j) ∉ st.header) →
      (∀ i j, i < bs.length → j < bs.length →
        adminName (level + i) = adminName (level + j) → i = j) →
      ∃ st', levelLoop pfloat longCol latCol level bs st = Except.ok st' ∧
        st'.header = st.header ++
          (List.range bs.length).map (fun j => adminName (level + j)) ∧
        st'.rows = st.rows.map (fun r => r ++
          (List.range bs.length).map (fun j =>
            (adminName (level + j),
             resolveName (bs.getD j junkBoundary) (ptOf pfloat longCol latCol r))))
  | [], level, st, _, hinv, hcw, _, _, _, _, _ =>
    ⟨st, rfl, by simp, by simp⟩
  | b :: bs', level, st, hgb, hinv, hcw, hpar, hlcm, hltm, hfresh, hinj => by
    have hfresh0 : adminName level ∉ st.header := by
      have := hfresh 0 (Nat.succ_pos _)
      rwa [Nat.add_zero] at this
    have hlcne : longCol ≠ adminName level := fun he => hfresh0 (he ▸ hlcm)
    have hltne : latCol ≠ adminName level := fun he => hfresh0 (he ▸ hltm)
    have hinv1 : (st.add_col (adminName level)).RowsInv :=
      add_col_RowsInv st hinv (adminName level)
    have hcw1 : ColsWF (st.add_col (adminName level)) :=
      add_col_ColsWF st hcw (adminName level)
    have hrows1 : (st.add_col (adminName level)).rows =
        st.rows.map (fun r => dset r (adminName level) "") := rfl
    have hh1 : (st.add_col (adminName level)).header =
        st.header ++ [adminName level] := rfl
    have hpar1 : ∀ r1 ∈ (st.add_col (adminName level)).rows,
        Parses pfloat longCol latCol r1 := by
      intro r1 hr1
      rw [hrows1] at hr1
      obtain ⟨r, hr, rfl⟩ := List.mem_map.mp hr1
      exact Parses_dset_ne pfloat (hpar r hr) hlcne hltne ""
    obtain ⟨st2, hloop, hh2, hrows2, hinv2, hcw2⟩ :=
      rowLoop_ok pfloat longCol latCol (adminName level) b (hgb b (List.mem_cons_self b bs'))
        (st.add_col (adminName level)).rows [] (st.add_col (adminName level)) rfl
        hinv1 hcw1 (by rw [hh1]; exact List.mem_append_right _ (List.mem_singleton.mpr rfl))
        hpar1
    have hrows2' : st2.rows = st.rows.map (fun r =>
        r ++ [(adminName level, resolveName b (ptOf pfloat longCol latCol r))]) := by
      rw [hrows2, List.nil_append, hrows1, List.map_map]
      refine List.map_congr_left ?_
      intro r hr
      show dset (dset r (adminName level) "") (adminName level)
          (resolveName b (ptOf pfloat longCol latCol (dset r (adminName level) ""))) =
        r ++ [(adminName level, resolveName b (ptOf pfloat longCol latCol r))]
      rw [ptOf_dset_ne pfloat r hlcne hltne "", dset_dset_same]
      have habs : dget? r (adminName level) = none := by
        rcases hcase : dget? r (adminName level) with _ | v
        · rfl
        · have := (hinv r hr (adminName level)).mp (by rw [hcase]; rfl)
          exact absurd this hfresh0
      rw [dset_of_absent habs]
    obtain ⟨st3, hloop3, hh3, hrows3⟩ :=
      levelLoop_ok pfloat longCol latCol bs' (level + 1) st2
        (fun b' hb' => hgb b' (List.mem_cons_of_mem b hb'))
        hinv2 hcw2
        (by
          intro r2 hr2
          rw [hrows2'] at hr2
          obtain ⟨r, hr, rfl⟩ := List.mem_map.mp hr2
          exact Parses_append pfloat (hpar r hr) _)
        (by rw [hh2, hh1]; exact List.mem_append_left _ hlcm)
        (by rw [hh2, hh1]; exact List.mem_append_left _ hltm)
        (by
          intro j hj hmem
          rw [hh2, hh1, List.mem_append, List.mem_singleton] at hmem
          have hshift : level + 1 + j = level + (j + 1) := by omega
          rcases hmem with hmem | hmem
          · exact hfresh (j + 1) (by rw [List.length_cons]; omega)
              (by rw [← hshift]; exact hmem)
          · have := hinj (j + 1) 0 (by rw [List.length_cons]; omega) (Nat.succ_pos _)
              (by rw [← hshift, Nat.add_zero] at *; exact hmem)
            omega)
        (by
          intro i j hi hj he
          have hsi : level + 1 + i = level + (i + 1) := by omega
          have hsj : level + 1 + j = level + (j + 1) := by omega
          have := hinj (i + 1) (j + 1) (by rw [List.length_cons]; omega)
            (by rw [List.length_cons]; omega)
            (by rw [← hsi, ← hsj]; exact he)
          omega)
    refine ⟨st3, ?_, ?_, ?_⟩
    · show (match rowLoop pfloat longCol latCol (adminName level) b
          (st.add_col (adminName level)).rows.enum (st.add_col (adminName level)) with
        | Except.error e => Except.error e
        | Except.ok st2 => levelLoop pfloat longCol latCol (level + 1) bs' st2) =
          Except.ok st3
      have henum : (st.add_col (adminName level)).rows.enum =
          List.enumFrom (List.length ([] : List Row)) (st.add_col (adminName level)).rows :=
        rfl
      rw [henum, hloop]
      exact hloop3
    · rw [hh3, hh2, hh1, List.append_assoc]
      refine congrArg (st.header ++ ·) ?_
      rw [List.length_cons, range_succ_map (fun j => adminName (level + j)) bs'.length]
      rw [List.singleton_append, Nat.add_zero]
      refine congrArg (adminName level :: ·) ?_
      refine List.map_congr_left ?_
      intro j _
      have : level + 1 + j = level + (j + 1) := by omega
      rw [this]
    · rw [hrows3, hrows2', List.map_map]
      refine List.map_congr_left ?_
      intro r hr
      show (r ++ [(adminName level, resolveName b (ptOf pfloat longCol latCol r))]) ++
          (List.range bs'.length).map (fun j =>
            (adminName (level + 1 + j), resolveName (bs'.getD j junkBoundary)
              (ptOf pfloat longCol latCol
                (r ++ [(adminName level, resolveName b (ptOf pfloat longCol latCol r))])))) =
        r ++ (List.range (b :: bs').length).map (fun j =>
          (adminName (level + j),
           resolveName ((b :: bs').getD j junkBoundary) (ptOf pfloat longCol latCol r)))
      rw [ptOf_append pfloat (hpar r hr) _, List.append_assoc, List.singleton_append]
      refine congrArg (r ++ ·) ?_
      rw [List.length_cons, range_succ_map (fun j =>
        (adminName (level + j),
         resolveName ((b :: bs').getD j junkBoundary) (ptOf pfloat longCol latCol r)))
        bs'.length]
      rw [Nat.add_zero]
      refine congrArg (_ :: ·) ?_
      refine List.map_congr_left ?_
      intro j _
      have : level + 1 + j = level + (j + 1) := by omega
      rw [this]
      rfl

/-- C5: joining `n` boundary sets against `m` parseable records succeeds
and produces exactly the `m` input records in input order, each extended
with exactly the `n` new fields `_geo_admin0 … _geo_admin(n-1)` holding
the resolved region name per level. -/
theorem claim_C5_join_shape (pfloat : String → Option ℝ) (longCol latCol : String)
    (boundaries : List GeoBoundary) (csv : DictCSV)
    (hgb : ∀ b ∈ boundaries, GoodBoundary b)
    (hinv : csv.RowsInv) (hcw : ColsWF csv)
    (hpar : ∀ r ∈ csv.rows, Parses pfloat longCol latCol r)
    (hlcm : longCol ∈ csv.header) (hltm : latCol ∈ csv.header)
    (hfresh : ∀ j, j < boundaries.length → adminName j ∉ csv.header)
    (hinj : ∀ i j, i < boundaries.length → j < boundaries.length →
      adminName i = adminName j → i = j) :
    ∃ out, runJoin pfloat longCol latCol boundaries csv = Except.ok out ∧
      out.header = csv.header ++ (List.range boundaries.length).map adminName ∧
      out.rows.length = csv.rows.length ∧
      out.rows = csv.rows.map (fun r => r ++
        (List.range boundaries.length).map (fun j =>
          (adminName j, resolveName (boundaries.getD j junkBoundary)
            (ptOf pfloat longCol latCol r)))) := by
  cases boundaries with
  | nil => exact ⟨csv, rfl, by simp, rfl, by simp⟩
  | cons b bs =>
    obtain ⟨out, hloop, hh, hrows⟩ := levelLoop_ok pfloat longCol latCol (b :: bs) 0 csv
      hgb hinv hcw hpar hlcm hltm
      (fun j hj => by rw [Nat.zero_add]; exact hfresh j hj)
      (fun i j hi hj he => hinj i j hi hj
        (by rw [Nat.zero_add, Nat.zero_add] at he; exact he))
    refine ⟨out, ?_, ?_, ?_, ?_⟩
    · rw [runJoin, if_neg (by simp)]
      exact hloop
    · rw [hh]
      refine congrArg (csv.header ++ ·) (List.map_congr_left ?_)
      intro j _
      rw [Nat.zero_add]
    · rw [hrows, List.length_map]
    · rw [hrows]
      refine List.map_congr_left ?_
      intro r _
      refine congrArg (r ++ ·) (List.map_congr_left ?_)
      intro j _
      rw [Nat.zero_add]

/-- The concrete one-record CSV used to instantiate the join. -/
def csvW : DictCSV := DictCSV.ofTable ["lon", "lat"] [["1", "1"]]

theorem claim_C5_join_shape_witness :
    (∀ b ∈ [wb2], GoodBoundary b) ∧ csvW.RowsInv ∧
      (∀ r ∈ csvW.rows, Parses pfW "lon" "lat" r) ∧
      (∃ out, runJoin pfW "lon" "lat" [wb2] csvW = Except.ok out ∧
        out.header = csvW.header ++ (List.range ([wb2] : List GeoBoundary).length).map adminName ∧
        out.rows.length = csvW.rows.length ∧
        out.rows = csvW.rows.map (fun r => r ++
          (List.range ([wb2] : List GeoBoundary).length).map (fun j =>
            (adminName j, resolveName (([wb2] : List GeoBoundary).getD j junkBoundary)
              (ptOf pfW "lon" "lat" r))))) := by
  have hgb : ∀ b ∈ [wb2], GoodBoundary b := by
    intro b hb
    rw [List.mem_singleton] at hb
    subst hb
    refine ⟨by simp [wb2], ?_⟩
    intro f hf
    have : f = featB := by simpa [wb2] using hf
    subst this
    rfl
  have hinv : csvW.RowsInv := ofTable_RowsInv ["lon", "lat"] [["1", "1"]] (by
    intro row hrow
    rw [List.mem_singleton] at hrow
    subst hrow
    decide)
  have hcw : ColsWF csvW := ofTable_ColsWF ["lon", "lat"] [["1", "1"]]
  have hrowsW : csvW.rows = [rowW] := rfl
  have hpar : ∀ r ∈ csvW.rows, Parses pfW "lon" "lat" r := by
    intro r hr
    rw [hrowsW, List.mem_singleton] at hr
    subst hr
    exact rowW_parses
  have hlcm : "lon" ∈ csvW.header := by decide
  have hltm : "lat" ∈ csvW.header := by decide
  have hfresh : ∀ j, j < ([wb2] : List GeoBoundary).length → adminName j ∉ csvW.header := by
    intro j hj
    have hj0 : j = 0 := by
      rw [List.length_singleton] at hj
      omega
    subst hj0
    decide
  have hinj : ∀ i j, i < ([wb2] : List GeoBoundary).length →
      j < ([wb2] : List GeoBoundary).length → adminName i = adminName j → i = j := by
    intro i j hi hj _
    rw [List.length_singleton] at hi hj
    omega
  exact ⟨hgb, hinv, hpar,
    claim_C5_join_shape pfW "lon" "lat" [wb2] csvW hgb hinv hcw hpar hlcm hltm hfresh hinj⟩
